import Mathlib

/-!
# libfstools/overlaypart.c

A shallow embedding of the overlay-partition volume driver
(`overlaypart_volume_find`, `overlaypart_volume_identify`,
`overlaypart_volume_init`) and the properties proved about it.

Conventions of the embedding:

* C strings are `List Char` (the characters before the terminating NUL);
  the contents of a block device are `List Nat`, one entry per byte, read
  modulo 256.
* A `FILE` is its content, a read position and the end-of-file indicator.
* Everything outside the process (the text of /proc/cmdline, `stat`, what
  `fopen` of a path gives, the answer of the BLKGETSIZE64 ioctl, the effect
  and status of `system`) is a `World`; a function that changes nothing
  returns the world it was given.
* Calls that leave the process are recorded, in order, as a list of `Event`.
* Behaviour the C standard leaves undefined is a `Fault`.  The one
  exception is the byte that `strcpy` writes past the block `calloc` gave
  for `blk`: it follows the allocator (`Target.malloc_usable_size`) and is
  recorded in the `Heap` that `overlaypart_volume_find` leaves.
* Allocations are taken to succeed.
* `ULOG_WARN`/`ULOG_INFO` lines are not modelled.
-/

namespace Overlaypart

/-! ## What the headers outside this file provide -/

/-- Constants that come from headers which are not part of this file
(`COMMAND_LINE_SIZE` from asm/setup.h, the `FS_` enumerators from
libfstools.h), the byte order of the machine, and from the C library the
number of bytes that a block returned for a request of `n` bytes really has
(`malloc_usable_size`), which is at least `n`.  The three enumerators are
only known to be pairwise different. -/
structure Target where
  COMMAND_LINE_SIZE : Nat
  FS_NONE : Int
  FS_EXT4 : Int
  FS_F2FS : Int
  big_endian : Bool
  ext4_ne_none : FS_EXT4 ≠ FS_NONE
  f2fs_ne_none : FS_F2FS ≠ FS_NONE
  f2fs_ne_ext4 : FS_F2FS ≠ FS_EXT4
  malloc_usable_size : Nat → Nat
  usable_ge : ∀ n, n ≤ malloc_usable_size n

/-- The macro `#define F2FS_MINSIZE (100 * 1024 * 1024)`. -/
def F2FS_MINSIZE : Nat := 100 * 1024 * 1024

/-- The value `EOF` of stdio.h. -/
def EOF : Int := -1

/-- Ways in which a run leaves defined behaviour, or the model its fuel. -/
inductive Fault where
  /-- The directive `%s` stored more characters than the destination array holds. -/
  | buffer_overflow
  /-- The call `fileno(fp)` was handed the null pointer a failed `fopen` returned. -/
  | null_stream
  /-- The loop was cut off by the iteration bound of the model. -/
  | out_of_fuel
  /-- The allocator was called after its records had been overwritten. -/
  | heap_damaged
  deriving DecidableEq, Repr

/-- The state of the allocator's records in the process. -/
inductive Heap where
  | intact
  /-- A write went past the end of a block into the records of the next. -/
  | damaged
  deriving DecidableEq, Repr

/-- Calls that leave the process. -/
inductive Event where
  | fopen (path : List Char)
  | stat (path : List Char)
  | ioctl_BLKGETSIZE64 (path : List Char)
  | system (cmd : List Char)
  deriving DecidableEq, Repr

/-! ## Streams -/

/-- A stream opened for reading. -/
structure FILE (α : Type) where
  content : List α
  pos : Nat
  eof : Bool
  deriving DecidableEq, Repr

/-- A freshly opened stream: `fopen(path, "r")` on a file with this content. -/
def FILE.start {α : Type} (content : List α) : FILE α :=
  { content := content, pos := 0, eof := false }

/-- The call `feof(fp)`. -/
def feof {α : Type} (fp : FILE α) : Bool := fp.eof

/-- Read one character: `none` (and the end-of-file indicator set) at the end
of the content, the character at the position otherwise. -/
def fgetc {α : Type} (fp : FILE α) : Option α × FILE α :=
  match fp.content[fp.pos]? with
  | none => (none, { fp with eof := true })
  | some c => (some c, { fp with pos := fp.pos + 1 })

/-- Push the character just read back, as `ungetc` and the push-back of
`fscanf` do; on a POSIX system the position goes back by one. -/
def ungetc {α : Type} (fp : FILE α) : FILE α :=
  { fp with pos := fp.pos - 1, eof := false }

/-- The call `fseek(fp, off, SEEK_CUR)` with `off >= 0` on a stream that can
seek, as /proc/cmdline can; it clears the end-of-file indicator.  The
position may move past the end. -/
def fseek_cur {α : Type} (fp : FILE α) (off : Nat) : FILE α :=
  { fp with pos := fp.pos + off, eof := false }

/-- The part of the content that has not been read. -/
def FILE.unread {α : Type} (fp : FILE α) : List α :=
  fp.content.drop fp.pos

/-- The function `isspace` in the C locale. -/
def isspace (c : Char) : Bool :=
  c = ' ' || c = '\t' || c = '\n' || c = '\x0b' || c = '\x0c' || c = '\r'

/-- The C string held by an array into which `w` and a terminating NUL were
written: the characters of `w` before its first NUL. -/
def c_string (w : List Char) : List Char :=
  w.takeWhile (fun c => c ≠ '\x00')

/-! ## `fscanf(fp, "overlay=%s", buffer_dev)` -/

/-- The ordinary characters of a scanf format: each must be the next
character of the input.  `none`: all matched.  `some EOF`: the input ended
first (input failure).  `some 0`: another character came (matching failure);
that character is pushed back. -/
def scan_literal : List Char → FILE Char → Option Int × FILE Char
  | [], fp => (none, fp)
  | c :: cs, fp =>
    match fgetc fp with
    | (none, fp1) => (some EOF, fp1)
    | (some d, fp1) => if d = c then scan_literal cs fp1 else (some 0, ungetc fp1)

/-- The `%s` directive into an array of `size` characters: skip white space,
then take the run of characters up to the next white space or the end of
the input.  `none` in the result: the input ended before a character of the
run was found (input failure).  A run that does not fit the array together
with its terminating NUL is a `Fault`. -/
def scan_s (size : Nat) (fp : FILE Char) : Except Fault (Option (List Char) × FILE Char) :=
  let input := fp.content.drop fp.pos
  let blank := input.takeWhile isspace
  let word := (input.dropWhile isspace).takeWhile (fun c => !isspace c)
  let after := (input.dropWhile isspace).dropWhile (fun c => !isspace c)
  if word = [] then
    .ok (none, { fp with pos := fp.pos + blank.length, eof := true })
  else if size < word.length + 1 then
    .error Fault.buffer_overflow
  else
    .ok (some word,
      { fp with pos := fp.pos + blank.length + word.length,
                eof := fp.eof || after.isEmpty })

/-- The call `fscanf(fp, "overlay=%s", buffer_dev)`: its return value, the
stream afterwards and the C string in `buffer_dev` afterwards. -/
def fscanf_overlay (size : Nat) (fp : FILE Char) (buffer_dev : List Char) :
    Except Fault (Int × FILE Char × List Char) :=
  match scan_literal "overlay=".toList fp with
  | (some r, fp1) => .ok (r, fp1, buffer_dev)
  | (none, fp1) =>
    match scan_s size fp1 with
    | .error e => .error e
    | .ok (none, fp2) => .ok (EOF, fp2, buffer_dev)
    | .ok (some w, fp2) => .ok (1, fp2, c_string w)

/-- The loop
`while (!feof(fp)) { if (fscanf(fp, "overlay=%s", buffer_dev)) break; fseek(fp, 1, SEEK_CUR); }`
run for at most `fuel` iterations; the result is the C string in
`buffer_dev` when the loop is left. -/
def scan_loop (size : Nat) : Nat → FILE Char → List Char → Except Fault (List Char)
  | 0, _, _ => .error Fault.out_of_fuel
  | fuel + 1, fp, buffer_dev =>
    if feof fp then .ok buffer_dev
    else
      match fscanf_overlay size fp buffer_dev with
      | .error e => .error e
      | .ok (r, fp1, buffer_dev1) =>
        if r ≠ 0 then .ok buffer_dev1
        else scan_loop size fuel (fseek_cur fp1 1) buffer_dev1

/-! ## The world outside the process -/

/-- The fields of `struct stat` that are looked at. -/
structure stat_t where
  st_mode : Nat
  st_rdev : Nat
  deriving DecidableEq, Repr

/-- What a path gives once opened for reading: its bytes, whether `fseek`
works on it, and the answer of the BLKGETSIZE64 ioctl (`none`: the ioctl
fails and leaves its argument alone). -/
structure Device where
  content : List Nat
  seekable : Bool
  size64 : Option Nat

/-- The state outside the process.  `proc_cmdline` is the text of
/proc/cmdline (`none`: it cannot be opened); `stat` and `fopen` are `none`
where the call fails. -/
structure World where
  proc_cmdline : Option (List Char)
  stat : List Char → Option stat_t
  fopen : List Char → Option Device

/-- The fields of `struct volume` that are used here (`drv` always points to
this driver). -/
structure volume where
  name : List Char
  blk : List Char
  deriving DecidableEq, Repr

/-- The type `struct overlaypart_volume`. -/
structure overlaypart_volume where
  v : volume
  fstype : Int
  deriving DecidableEq, Repr

/-! ## `overlaypart_volume_find` -/

/-- The lines
`p->v.blk = calloc(strlen(s), sizeof(char)); strcpy(p->v.blk, s);`:
the block is asked for `strlen(s)` bytes and `strcpy` writes
`strlen(s) + 1`, the characters and the terminating NUL.  The NUL goes past
what was asked for.  While it is within the bytes the block really has it
changes nothing that is used; when the block has no byte to spare it
overwrites the allocator's records of what follows the block.  The result
is the heap after the two lines. -/
def calloc_strcpy (T : Target) (s : List Char) : Heap :=
  if s.length + 1 ≤ T.malloc_usable_size s.length then Heap.intact else Heap.damaged

/-- The function `overlaypart_volume_find(name)` with the scan loop cut off after `fuel`
iterations, called in a process whose heap is intact.  The result is the
volume (`none` for `NULL`), the calls made and the heap the call leaves.
`buffer_fstype` is never written by the source, so it still holds the empty
string it was initialised with when it is looked at.  The string `blk`
points to is the one copied; `calloc_strcpy` tells what the copy did to the
heap. -/
def overlaypart_volume_find_fuel (T : Target) (fuel : Nat) (w : World) (name : List Char) :
    Except Fault (Option overlaypart_volume × List Event × Heap) :=
  let buffer_fstype : List Char := []
  if name ≠ "rootfs_data".toList then .ok (none, [], Heap.intact)
  else
    match w.proc_cmdline with
    | none => .ok (none, [Event.fopen "/proc/cmdline".toList], Heap.intact)
    | some text =>
      match scan_loop T.COMMAND_LINE_SIZE fuel (FILE.start text) [] with
      | .error e => .error e
      | .ok buffer_dev =>
        if buffer_dev = [] then .ok (none, [Event.fopen "/proc/cmdline".toList], Heap.intact)
        else
          match w.stat buffer_dev with
          | none =>
            .ok (none, [Event.fopen "/proc/cmdline".toList, Event.stat buffer_dev], Heap.intact)
          | some st =>
            if st.st_rdev = 0 then
              .ok (none, [Event.fopen "/proc/cmdline".toList, Event.stat buffer_dev],
                Heap.intact)
            else
              let fstype :=
                if buffer_fstype ≠ [] then
                  if buffer_fstype = "ext4".toList then T.FS_EXT4
                  else if buffer_fstype = "f2fs".toList then T.FS_F2FS
                  else T.FS_NONE
                else T.FS_NONE
              .ok (some { v := { name := "rootfs_data".toList, blk := buffer_dev },
                          fstype := fstype },
                   [Event.fopen "/proc/cmdline".toList, Event.stat buffer_dev],
                   calloc_strcpy T buffer_dev)

/-- The function `overlaypart_volume_find(name)`.  The loop is given one iteration more
than /proc/cmdline has characters, which `scan_loop_fuel` shows to be
enough. -/
def overlaypart_volume_find (T : Target) (w : World) (name : List Char) :
    Except Fault (Option overlaypart_volume × List Event × Heap) :=
  overlaypart_volume_find_fuel T ((w.proc_cmdline.getD []).length + 1) w name

/-! ## `overlaypart_volume_identify` -/

/-- The value the machine reads from a `uint32_t` whose four bytes in
memory, lowest address first, are `m`. -/
def load32 (big_endian : Bool) (m : List Nat) : Nat :=
  if big_endian then
    m.getD 0 0 % 256 * 2 ^ 24 + m.getD 1 0 % 256 * 2 ^ 16 + m.getD 2 0 % 256 * 2 ^ 8
      + m.getD 3 0 % 256
  else
    m.getD 0 0 % 256 + m.getD 1 0 % 256 * 2 ^ 8 + m.getD 2 0 % 256 * 2 ^ 16
      + m.getD 3 0 % 256 * 2 ^ 24

/-- Reverse the four bytes of a 32-bit value. -/
def bswap32 (x : Nat) : Nat :=
  x % 256 * 2 ^ 24 + x / 2 ^ 8 % 256 * 2 ^ 16 + x / 2 ^ 16 % 256 * 2 ^ 8 + x / 2 ^ 24 % 256

/-- Modelled from the spec: the macro `cpu_to_le32` comes from a header
outside this file; the spec speaks of a 4-byte little-endian value, so the
macro is the identity on a little-endian machine and the byte swap on a
big-endian one. -/
def cpu_to_le32 (T : Target) (x : Nat) : Nat :=
  if T.big_endian then bswap32 x else x

/-- Modelled from the spec: the macro `le32_to_cpu`, the inverse conversion
of `cpu_to_le32`, from the same header. -/
def le32_to_cpu (T : Target) (x : Nat) : Nat :=
  if T.big_endian then bswap32 x else x

/-- The call `fseek(fp, off, SEEK_SET)`: the return value and the stream. -/
def fseek_set {α : Type} (seekable : Bool) (fp : FILE α) (off : Nat) : Int × FILE α :=
  if seekable then (0, { fp with pos := off, eof := false }) else (-1, fp)

/-- The call `fread(&magic, sizeof(uint32_t), 1, fp)`: the bytes of `magic` and the
stream afterwards.  When fewer than four bytes are left the C standard
leaves the value of the object open; as the C libraries do, the bytes that
were read are stored and the others keep what they held. -/
def fread_u32 (fp : FILE Nat) (magic : List Nat) : List Nat × FILE Nat :=
  let got := (fp.content.drop fp.pos).take 4
  (got ++ magic.drop got.length,
   { fp with pos := fp.pos + got.length, eof := fp.eof || decide (got.length < 4) })

/-- The function `overlaypart_volume_identify(v)`: the detected type and the calls made. -/
def overlaypart_volume_identify (T : Target) (w : World) (v : volume) : Int × List Event :=
  match w.fopen v.blk with
  | none => (T.FS_NONE, [Event.fopen v.blk])
  | some dev =>
    let fp0 := FILE.start dev.content
    let magic0 : List Nat := [0, 0, 0, 0]
    let fstype0 := T.FS_NONE
    let (r1, fp1) := fseek_set dev.seekable fp0 0x400
    let (magic1, fp2) := if r1 = 0 then fread_u32 fp1 magic0 else (magic0, fp1)
    let fstype1 :=
      if r1 = 0 ∧ load32 T.big_endian magic1 = cpu_to_le32 T 0xF2F52010 then T.FS_F2FS
      else fstype0
    let magic2 : List Nat := [0, 0, 0, 0]
    let (r2, fp3) := fseek_set dev.seekable fp2 0x438
    let (magic3, _) := if r2 = 0 then fread_u32 fp3 magic2 else (magic2, fp3)
    let fstype2 :=
      if r2 = 0 ∧ le32_to_cpu T (load32 T.big_endian magic3) &&& 0xffff = 0xef53 then T.FS_EXT4
      else fstype1
    (fstype2, [Event.fopen v.blk])

/-! ## `overlaypart_volume_init` -/

/-- The call `snprintf(cmd, size, "<head>%s", arg)` for a `head` without conversions:
the string left in `cmd`, cut to what fits before the terminating NUL. -/
def snprintf_s (size : Nat) (head : List Char) (arg : List Char) : List Char :=
  (head ++ arg).take (size - 1)

/-- The function `overlaypart_volume_init(v)`, with `p` the `overlaypart_volume` that
contains `v`.  `system` is the effect of `system(cmd)` on the world and its
status.  The result is the return value, the world afterwards and the calls
made. -/
def overlaypart_volume_init (T : Target) (system : World → List Char → Int × World)
    (w : World) (p : overlaypart_volume) : Except Fault (Int × World × List Event) :=
  let v := p.v
  let (found, ev0) := overlaypart_volume_identify T w v
  if found ≠ T.FS_NONE then .ok (0, w, ev0)
  else
    match w.fopen v.blk with
    | none => .error Fault.null_stream
    | some dev =>
      let size : Nat :=
        match dev.size64 with
        | some s => s % 2 ^ 64
        | none => 0
      let ev1 := ev0 ++ [Event.fopen v.blk, Event.ioctl_BLKGETSIZE64 v.blk]
      let fstype :=
        if p.fstype = T.FS_NONE then
          if size ≥ F2FS_MINSIZE then T.FS_F2FS else T.FS_EXT4
        else p.fstype
      if fstype = T.FS_EXT4 then
        let cmd := snprintf_s (32 + T.COMMAND_LINE_SIZE) "mkfs.ext4 -L rootfs_data ".toList v.blk
        let (r, w1) := system w cmd
        .ok (r, w1, ev1 ++ [Event.system cmd])
      else if fstype = T.FS_F2FS then
        let cmd := snprintf_s (32 + T.COMMAND_LINE_SIZE) "mkfs.f2fs -l rootfs_data ".toList v.blk
        let (r, w1) := system w cmd
        .ok (r, w1, ev1 ++ [Event.system cmd])
      else .ok (-1, w, ev1)

/-- The function `overlaypart_volume_init(v)` called in a process whose heap is
`heap`, as it is after an earlier call of `overlaypart_volume_find` in the
same process.  The first thing it does is the `fopen` of the probe, which
asks the allocator for a stream: with damaged records that call is
undefined. -/
def overlaypart_volume_init_on (heap : Heap) (T : Target)
    (system : World → List Char → Int × World) (w : World) (p : overlaypart_volume) :
    Except Fault (Int × World × List Event) :=
  match heap with
  | Heap.intact => overlaypart_volume_init T system w p
  | Heap.damaged => .error Fault.heap_damaged

/-! ## Vocabulary of the specification -/

/-- The 32-bit value whose little-endian representation are the four bytes
of `content` from offset `off` on. -/
def le32_at (content : List Nat) (off : Nat) : Nat :=
  content.getD off 0 % 256 + content.getD (off + 1) 0 % 256 * 2 ^ 8
    + content.getD (off + 2) 0 % 256 * 2 ^ 16 + content.getD (off + 3) 0 % 256 * 2 ^ 24

/-- The command line `overlaypart_volume_init` builds for Ext4. -/
def command_ext4 (T : Target) (blk : List Char) : List Char :=
  snprintf_s (32 + T.COMMAND_LINE_SIZE) "mkfs.ext4 -L rootfs_data ".toList blk

/-- The command line `overlaypart_volume_init` builds for F2fs. -/
def command_f2fs (T : Target) (blk : List Char) : List Char :=
  snprintf_s (32 + T.COMMAND_LINE_SIZE) "mkfs.f2fs -l rootfs_data ".toList blk

/-- The outcome of a provisioning run that formats: the device `blk` is
probed, opened again and asked for its capacity, then the one command `cmd`
is run; the status of the command is the return value and the world is the
one the command leaves. -/
def formats_with (system : World → List Char → Int × World) (w : World)
    (blk cmd : List Char) : Except Fault (Int × World × List Event) :=
  .ok ((system w cmd).1, (system w cmd).2,
    [Event.fopen blk, Event.fopen blk, Event.ioctl_BLKGETSIZE64 blk, Event.system cmd])

/-- The outcome of a provisioning run that ends in the `default:` case of
the `switch`: the device `blk` is probed, opened again and asked for its
capacity, no command is run, the return value is -1 and the world is as it
was. -/
def refuses (w : World) (blk : List Char) : Except Fault (Int × World × List Event) :=
  .ok (-1, w, [Event.fopen blk, Event.fopen blk, Event.ioctl_BLKGETSIZE64 blk])

/-- The number of leading characters of `input` that agree with `lit`. -/
def lit_run : List Char → List Char → Nat
  | [], _ => 0
  | _ :: _, [] => 0
  | c :: cs, d :: ds => if d = c then lit_run cs ds + 1 else 0

/-- Helper of `tokens`: `cur` is the token being read, last character
first. -/
def tokens_from : List Char → List Char → List (List Char)
  | cur, [] => if cur = [] then [] else [cur.reverse]
  | cur, c :: cs =>
    if isspace c then
      if cur = [] then tokens_from [] cs else cur.reverse :: tokens_from [] cs
    else tokens_from (c :: cur) cs

/-- The whitespace-delimited tokens of a text, in order. -/
def tokens (text : List Char) : List (List Char) :=
  tokens_from [] text

/-- The path of the first whitespace-delimited token `overlay=<path>` of a
text: what follows `overlay=` in the first token that begins with it. -/
def first_overlay_path (text : List Char) : Option (List Char) :=
  ((tokens text).find? (fun t => "overlay=".toList.isPrefixOf t)).map (fun t => t.drop 8)

/-- The value of the first whitespace-delimited token `overlayfstype=<value>`
of a text. -/
def first_overlayfstype (text : List Char) : Option (List Char) :=
  ((tokens text).find? (fun t => "overlayfstype=".toList.isPrefixOf t)).map
    (fun t => t.drop 14)

/-- The filesystem hint the specification gives a boot line: Ext4 or F2fs
when its `overlayfstype=` token says `ext4` or `f2fs`, none otherwise. -/
def spec_hint (T : Target) (text : List Char) : Int :=
  match first_overlayfstype text with
  | none => T.FS_NONE
  | some value =>
    if value = "ext4".toList then T.FS_EXT4
    else if value = "f2fs".toList then T.FS_F2FS
    else T.FS_NONE

/-! ## Concrete targets and worlds -/

/-- A little-endian target with a 1024-character command line and the
block sizes of a 64-bit glibc: 24 bytes at least, then steps of 16. -/
def target_le : Target :=
  { COMMAND_LINE_SIZE := 1024, FS_NONE := 0, FS_EXT4 := 6, FS_F2FS := 5, big_endian := false,
    ext4_ne_none := by decide, f2fs_ne_none := by decide, f2fs_ne_ext4 := by decide,
    malloc_usable_size := fun n => max 24 ((n + 23) / 16 * 16 - 8),
    usable_ge := fun n => by
      show n ≤ max 24 ((n + 23) / 16 * 16 - 8)
      omega }

/-- A big-endian target with a 4096-character command line and the block
sizes of a 32-bit glibc: 12 bytes at least, then steps of 8. -/
def target_be : Target :=
  { COMMAND_LINE_SIZE := 4096, FS_NONE := 0, FS_EXT4 := 1, FS_F2FS := 2, big_endian := true,
    ext4_ne_none := by decide, f2fs_ne_none := by decide, f2fs_ne_ext4 := by decide,
    malloc_usable_size := fun n => max 12 ((n + 11) / 8 * 8 - 4),
    usable_ge := fun n => by
      show n ≤ max 12 ((n + 11) / 8 * 8 - 4)
      omega }

/-- The `st_mode` of a block special file, mode 0660. -/
def mode_blk : Nat := 0o060660

/-- The `st_mode` of a character special file, mode 0666. -/
def mode_chr : Nat := 0o020666

/-- The macro `S_ISBLK(st.st_mode)`. -/
def S_ISBLK (st : stat_t) : Bool := st.st_mode &&& 0o170000 = 0o060000

/-- A device of 2048 bytes, all zero except for the bytes `at400` (at most
four) from offset 0x400 on and the bytes `at438` from offset 0x438 on. -/
def disk (at400 at438 : List Nat) (size64 : Option Nat) : Device :=
  { content := List.replicate 0x400 0 ++ (at400 ++ [0, 0, 0, 0]).take 4 ++ List.replicate 0x34 0
      ++ (at438 ++ [0, 0, 0, 0]).take 4 ++ List.replicate 0x3c4 0,
    seekable := true,
    size64 := size64 }

/-- A world whose boot line is `line`, in which `path` is a special file
with `st_mode` `mode` and device number 0xb304 that opens as `dev`, and no
other path exists. -/
def world_with (line : String) (path : String) (mode : Nat) (dev : Device) : World :=
  { proc_cmdline := some line.toList,
    stat := fun p => if p = path.toList then some { st_mode := mode, st_rdev := 0xb304 } else none,
    fopen := fun p => if p = path.toList then some dev else none }

/-- A world whose boot line is `line`, in which `path` is a block special
file that cannot be opened for reading, and no other path exists. -/
def world_unopenable (line : String) (path : String) : World :=
  { proc_cmdline := some line.toList,
    stat := fun p =>
      if p = path.toList then some { st_mode := mode_blk, st_rdev := 0xb304 } else none,
    fopen := fun _ => none }

/-- The volume `rootfs_data` on the device `path`, with `fstype` as stored
type. -/
def volume_on (path : String) (fstype : Int) : overlaypart_volume :=
  { v := { name := "rootfs_data".toList, blk := path.toList }, fstype := fstype }

/-- A `system` that writes an Ext4 or F2fs signature to the device named
last on a `mkfs` command line and reports success. -/
def mkfs_ok (w : World) (cmd : List Char) : Int × World :=
  let path := cmd.drop 25
  let sig : List Nat × List Nat :=
    if cmd.take 9 = "mkfs.f2fs".toList then ([0x10, 0x20, 0xF5, 0xF2], [0, 0, 0, 0])
    else ([0, 0, 0, 0], [0x53, 0xef, 0, 0])
  (0, { w with fopen := fun q =>
          if q = path then (w.fopen q).map (fun d => disk sig.1 sig.2 d.size64)
          else w.fopen q })

/-- A device of `n` zero bytes followed by the bytes `last`. -/
def short_disk (n : Nat) (last : List Nat) : Device :=
  { content := List.replicate n 0 ++ last, seekable := true, size64 := none }

/-- A `system` that changes nothing and reports the status `r`. -/
def mkfs_status (r : Int) (w : World) (_cmd : List Char) : Int × World :=
  (r, w)

/-! ## Reading the signatures -/

theorem take4_drop (c : List Nat) (off : Nat) (h : off + 4 ≤ c.length) :
    (c.drop off).take 4
      = [c.getD off 0, c.getD (off + 1) 0, c.getD (off + 2) 0, c.getD (off + 3) 0] := by
  induction off generalizing c with
  | zero =>
    match c, h with
    | a :: b :: d :: e :: rest, _ => simp
  | succ n ih =>
    match c, h with
    | x :: c1, h =>
      have h1 : n + 4 ≤ c1.length := by simpa using h
      have := ih c1 h1
      simp only [List.drop_succ_cons, this]
      simp [List.getD_cons_succ, Nat.add_right_comm]

theorem fread_u32_full (c : List Nat) (off : Nat) (e : Bool) (m : List Nat)
    (h : off + 4 ≤ c.length) (hm : m.length ≤ 4) :
    (fread_u32 { content := c, pos := off, eof := e } m).1
      = [c.getD off 0, c.getD (off + 1) 0, c.getD (off + 2) 0, c.getD (off + 3) 0] := by
  simp [fread_u32, take4_drop c off h, hm]

theorem fread_u32_content (fp : FILE Nat) (m : List Nat) :
    (fread_u32 fp m).2.content = fp.content := rfl

theorem load32_eq_cpu_to_le32 (T : Target) (a b c d : Nat) :
    load32 T.big_endian [a, b, c, d] = cpu_to_le32 T 0xF2F52010
      ↔ a % 256 + b % 256 * 2 ^ 8 + c % 256 * 2 ^ 16 + d % 256 * 2 ^ 24 = 0xF2F52010 := by
  cases hb : T.big_endian <;> simp [load32, cpu_to_le32, bswap32, hb]; omega

theorem le32_to_cpu_load32 (T : Target) (a b c d : Nat) :
    le32_to_cpu T (load32 T.big_endian [a, b, c, d])
      = a % 256 + b % 256 * 2 ^ 8 + c % 256 * 2 ^ 16 + d % 256 * 2 ^ 24 := by
  cases hb : T.big_endian <;> simp [load32, le32_to_cpu, bswap32, hb]; omega

theorem land_ffff (x : Nat) : x &&& 0xffff = x % 0x10000 :=
  Nat.and_pow_two_sub_one_eq_mod x 16

/-- What `overlaypart_volume_identify` returns on a device that opens, seeks
and has all the bytes of both probes. -/
theorem identify_of_readable (T : Target) (w : World) (v : volume) (dev : Device)
    (hopen : w.fopen v.blk = some dev) (hseek : dev.seekable = true)
    (hlen : 0x43c ≤ dev.content.length) :
    (overlaypart_volume_identify T w v).1
      = if le32_at dev.content 0x438 % 0x10000 = 0xef53 then T.FS_EXT4
        else if le32_at dev.content 0x400 = 0xF2F52010 then T.FS_F2FS
        else T.FS_NONE := by
  have h1 : 0x400 + 4 ≤ dev.content.length := by omega
  have h2 : 0x438 + 4 ≤ dev.content.length := by omega
  have hm : ([0, 0, 0, 0] : List Nat).length ≤ 4 := by simp
  simp only [overlaypart_volume_identify, hopen, hseek, fseek_set, FILE.start, if_true,
    fread_u32_content, fread_u32_full _ _ _ _ h1 hm, fread_u32_full _ _ _ _ h2 hm, true_and,
    load32_eq_cpu_to_le32, le32_to_cpu_load32, land_ffff, le32_at]

/-! ## Claims about `overlaypart_volume_identify` and `overlaypart_volume_init` -/

/-- C1: on a device that can be opened and on which both probes seek and
read their four bytes, `overlaypart_volume_identify` returns FS_F2FS when the
little-endian 32-bit value at offset 0x400 is 0xF2F52010 and the Ext4
signature is absent, FS_EXT4 when the little-endian value at offset 0x438
has 0xef53 in its low 16 bits, and FS_NONE when neither signature is
present.  This holds on targets of either byte order. -/
theorem identify_by_signature (T : Target) (w : World) (v : volume) (dev : Device)
    (hopen : w.fopen v.blk = some dev) (hseek : dev.seekable = true)
    (hlen : 0x43c ≤ dev.content.length) :
    (le32_at dev.content 0x400 = 0xF2F52010 ∧ le32_at dev.content 0x438 % 0x10000 ≠ 0xef53 →
        (overlaypart_volume_identify T w v).1 = T.FS_F2FS) ∧
    (le32_at dev.content 0x438 % 0x10000 = 0xef53 →
        (overlaypart_volume_identify T w v).1 = T.FS_EXT4) ∧
    (le32_at dev.content 0x400 ≠ 0xF2F52010 ∧ le32_at dev.content 0x438 % 0x10000 ≠ 0xef53 →
        (overlaypart_volume_identify T w v).1 = T.FS_NONE) := by
  rw [identify_of_readable T w v dev hopen hseek hlen]
  refine ⟨?_, ?_, ?_⟩
  · rintro ⟨h1, h2⟩
    rw [if_neg h2, if_pos h1]
  · intro h
    rw [if_pos h]
  · rintro ⟨h1, h2⟩
    rw [if_neg h2, if_neg h1]

set_option maxRecDepth 8192 in
theorem identify_by_signature_witness :
    (overlaypart_volume_identify target_be
        (world_with "" "/dev/sda1" mode_blk (disk [0x10, 0x20, 0xF5, 0xF2] [] none))
        { name := "rootfs_data".toList, blk := "/dev/sda1".toList }).1 = target_be.FS_F2FS
    ∧ (overlaypart_volume_identify target_be
        (world_with "" "/dev/sda1" mode_blk (disk [0x10, 0x20, 0xF5, 0xF2] [0x53, 0xef, 7, 9] none))
        { name := "rootfs_data".toList, blk := "/dev/sda1".toList }).1 = target_be.FS_EXT4
    ∧ (overlaypart_volume_identify target_le
        (world_with "" "/dev/sda1" mode_blk (disk [] [] none))
        { name := "rootfs_data".toList, blk := "/dev/sda1".toList }).1 = target_le.FS_NONE :=
  have e400 : le32_at (disk [0x10, 0x20, 0xF5, 0xF2] [] none).content 0x400 = 0xF2F52010 := rfl
  have e438 : le32_at (disk [0x10, 0x20, 0xF5, 0xF2] [] none).content 0x438 % 0x10000 = 0 := rfl
  have f438 :
      le32_at (disk [0x10, 0x20, 0xF5, 0xF2] [0x53, 0xef, 7, 9] none).content 0x438 % 0x10000
        = 0xef53 := rfl
  have z400 : le32_at (disk [] [] none).content 0x400 = 0 := rfl
  have z438 : le32_at (disk [] [] none).content 0x438 % 0x10000 = 0 := rfl
  ⟨(identify_by_signature target_be
      (world_with "" "/dev/sda1" mode_blk (disk [0x10, 0x20, 0xF5, 0xF2] [] none))
      { name := "rootfs_data".toList, blk := "/dev/sda1".toList }
      (disk [0x10, 0x20, 0xF5, 0xF2] [] none) rfl rfl
      (le_of_le_of_eq (by decide : 0x43c ≤ 2048) rfl)).1
      ⟨e400, by rw [e438]; decide⟩,
   (identify_by_signature target_be
      (world_with "" "/dev/sda1" mode_blk (disk [0x10, 0x20, 0xF5, 0xF2] [0x53, 0xef, 7, 9] none))
      { name := "rootfs_data".toList, blk := "/dev/sda1".toList }
      (disk [0x10, 0x20, 0xF5, 0xF2] [0x53, 0xef, 7, 9] none) rfl rfl
      (le_of_le_of_eq (by decide : 0x43c ≤ 2048) rfl)).2.1 f438,
   (identify_by_signature target_le
      (world_with "" "/dev/sda1" mode_blk (disk [] [] none))
      { name := "rootfs_data".toList, blk := "/dev/sda1".toList }
      (disk [] [] none) rfl rfl
      (le_of_le_of_eq (by decide : 0x43c ≤ 2048) rfl)).2.2
      ⟨by rw [z400]; decide, by rw [z438]; decide⟩⟩


theorem identify_events (T : Target) (w : World) (v : volume) :
    (overlaypart_volume_identify T w v).2 = [Event.fopen v.blk] := by
  unfold overlaypart_volume_identify
  cases w.fopen v.blk <;> rfl

/-- The run of `overlaypart_volume_init` on a device without a detected
filesystem that can be opened: the type is chosen from the stored type and
the capacity, and the matching command is run. -/
theorem init_of_blank (T : Target) (system : World → List Char → Int × World) (w : World)
    (p : overlaypart_volume) (dev : Device)
    (hnone : (overlaypart_volume_identify T w p.v).1 = T.FS_NONE)
    (hopen : w.fopen p.v.blk = some dev) :
    overlaypart_volume_init T system w p
      = if (if p.fstype = T.FS_NONE then
              (if F2FS_MINSIZE ≤ (match dev.size64 with | some s => s % 2 ^ 64 | none => 0)
                then T.FS_F2FS else T.FS_EXT4)
            else p.fstype) = T.FS_EXT4
        then formats_with system w p.v.blk (command_ext4 T p.v.blk)
        else if (if p.fstype = T.FS_NONE then
              (if F2FS_MINSIZE ≤ (match dev.size64 with | some s => s % 2 ^ 64 | none => 0)
                then T.FS_F2FS else T.FS_EXT4)
            else p.fstype) = T.FS_F2FS
        then formats_with system w p.v.blk (command_f2fs T p.v.blk)
        else .ok (-1, w, [Event.fopen p.v.blk, Event.fopen p.v.blk,
                          Event.ioctl_BLKGETSIZE64 p.v.blk]) := by
  have hid : overlaypart_volume_identify T w p.v = (T.FS_NONE, [Event.fopen p.v.blk]) :=
    Prod.ext hnone (identify_events T w p.v)
  simp only [overlaypart_volume_init, hid, ne_eq, not_true_eq_false, if_false, hopen,
    formats_with, command_ext4, command_f2fs, ge_iff_le, List.cons_append, List.nil_append]

/-- C2: when `overlaypart_volume_identify` finds a filesystem,
`overlaypart_volume_init` returns 0, leaves the world as it was, and the
only call it makes is the `fopen` of the probe: no command is run and the
capacity is not queried.  A second call on the world the first one left
does the same. -/
theorem init_formatted_is_noop (T : Target) (system : World → List Char → Int × World)
    (w : World) (p : overlaypart_volume)
    (h : (overlaypart_volume_identify T w p.v).1 ≠ T.FS_NONE) :
    overlaypart_volume_init T system w p = .ok (0, w, [Event.fopen p.v.blk])
    ∧ (overlaypart_volume_init T system w p >>= fun r =>
        overlaypart_volume_init T system r.2.1 p) = .ok (0, w, [Event.fopen p.v.blk]) := by
  have h1 : overlaypart_volume_init T system w p = .ok (0, w, [Event.fopen p.v.blk]) := by
    simp only [overlaypart_volume_init, ne_eq, h, not_false_eq_true, if_true,
      identify_events T w p.v]
  refine ⟨h1, ?_⟩
  rw [h1]
  exact h1

set_option maxRecDepth 8192 in
theorem init_formatted_is_noop_witness :
    (overlaypart_volume_identify target_le
        (world_with "" "/dev/mmcblk0p4" mode_blk (disk [0x10, 0x20, 0xF5, 0xF2] [] (some 0x10000000)))
        (volume_on "/dev/mmcblk0p4" 0).v).1 ≠ target_le.FS_NONE
    ∧ overlaypart_volume_init target_le mkfs_ok
        (world_with "" "/dev/mmcblk0p4" mode_blk (disk [0x10, 0x20, 0xF5, 0xF2] [] (some 0x10000000)))
        (volume_on "/dev/mmcblk0p4" 0)
      = .ok (0, world_with "" "/dev/mmcblk0p4" mode_blk
                  (disk [0x10, 0x20, 0xF5, 0xF2] [] (some 0x10000000)),
             [Event.fopen "/dev/mmcblk0p4".toList]) :=
  have e : (overlaypart_volume_identify target_le
        (world_with "" "/dev/mmcblk0p4" mode_blk (disk [0x10, 0x20, 0xF5, 0xF2] [] (some 0x10000000)))
        (volume_on "/dev/mmcblk0p4" 0).v).1 = 5 := rfl
  have h : (overlaypart_volume_identify target_le
        (world_with "" "/dev/mmcblk0p4" mode_blk (disk [0x10, 0x20, 0xF5, 0xF2] [] (some 0x10000000)))
        (volume_on "/dev/mmcblk0p4" 0).v).1 ≠ target_le.FS_NONE := by rw [e]; decide
  ⟨h, (init_formatted_is_noop target_le mkfs_ok _ _ h).1⟩

/-- The two command lines differ, whatever the device path: the tool names
are within the part `snprintf` never cuts. -/
theorem command_f2fs_ne_ext4 (T : Target) (blk : List Char) :
    command_f2fs T blk ≠ command_ext4 T blk := by
  intro h
  have h9 := congrArg (fun l => l.take 9) h
  have hmin : min 9 (32 + T.COMMAND_LINE_SIZE - 1) = 9 := by omega
  simp only [command_f2fs, command_ext4, snprintf_s, List.take_take, hmin] at h9
  rw [List.take_append_of_le_length (by decide), List.take_append_of_le_length (by decide)] at h9
  revert h9
  decide

theorem formats_with_inj (system : World → List Char → Int × World) (w : World)
    (blk cmd1 cmd2 : List Char)
    (h : formats_with system w blk cmd1 = formats_with system w blk cmd2) : cmd1 = cmd2 := by
  simp only [formats_with, Except.ok.injEq, Prod.mk.injEq, List.cons.injEq, Event.system.injEq,
    and_true, true_and] at h
  exact h.2.2

/-- C3: for a volume without a stored type on a device that can be opened
and on which no filesystem is detected, when the capacity query reports the
64-bit value `c`, `overlaypart_volume_init` runs the F2fs command if and
only if `c >= 104857600`, and the Ext4 command if and only if
`c < 104857600`. -/
theorem init_size_policy (T : Target) (system : World → List Char → Int × World) (w : World)
    (p : overlaypart_volume) (dev : Device) (c : Nat)
    (hhint : p.fstype = T.FS_NONE)
    (hnone : (overlaypart_volume_identify T w p.v).1 = T.FS_NONE)
    (hopen : w.fopen p.v.blk = some dev) (hcap : dev.size64 = some c) (h64 : c < 2 ^ 64) :
    (overlaypart_volume_init T system w p
        = formats_with system w p.v.blk (command_f2fs T p.v.blk) ↔ 104857600 ≤ c) ∧
    (overlaypart_volume_init T system w p
        = formats_with system w p.v.blk (command_ext4 T p.v.blk) ↔ c < 104857600) := by
  have hmin : F2FS_MINSIZE = 104857600 := rfl
  have hbig : 104857600 ≤ c → overlaypart_volume_init T system w p
      = formats_with system w p.v.blk (command_f2fs T p.v.blk) := by
    intro hc
    rw [init_of_blank T system w p dev hnone hopen, hcap]
    simp only [hhint, if_true, Nat.mod_eq_of_lt h64, hmin]
    rw [if_pos hc, if_neg T.f2fs_ne_ext4, if_pos rfl]
  have hsmall : c < 104857600 → overlaypart_volume_init T system w p
      = formats_with system w p.v.blk (command_ext4 T p.v.blk) := by
    intro hc
    rw [init_of_blank T system w p dev hnone hopen, hcap]
    simp only [hhint, if_true, Nat.mod_eq_of_lt h64, hmin]
    rw [if_neg (Nat.not_le.mpr hc), if_pos rfl]
  constructor
  · refine ⟨fun h => ?_, hbig⟩
    by_contra hc
    have h2 := hsmall (Nat.not_le.mp hc)
    rw [h] at h2
    exact command_f2fs_ne_ext4 T p.v.blk (formats_with_inj system w _ _ _ h2)
  · refine ⟨fun h => ?_, hsmall⟩
    by_contra hc
    have h2 := hbig (Nat.not_lt.mp hc)
    rw [h] at h2
    exact command_f2fs_ne_ext4 T p.v.blk (formats_with_inj system w _ _ _ h2).symm

set_option maxRecDepth 8192 in
theorem init_size_policy_witness :
    overlaypart_volume_init target_le mkfs_ok
        (world_with "" "/dev/mmcblk0p4" mode_blk (disk [] [] (some 104857600)))
        (volume_on "/dev/mmcblk0p4" 0)
      = formats_with mkfs_ok
          (world_with "" "/dev/mmcblk0p4" mode_blk (disk [] [] (some 104857600)))
          "/dev/mmcblk0p4".toList "mkfs.f2fs -l rootfs_data /dev/mmcblk0p4".toList
    ∧ overlaypart_volume_init target_le mkfs_ok
        (world_with "" "/dev/mmcblk0p4" mode_blk (disk [] [] (some 104857599)))
        (volume_on "/dev/mmcblk0p4" 0)
      = formats_with mkfs_ok
          (world_with "" "/dev/mmcblk0p4" mode_blk (disk [] [] (some 104857599)))
          "/dev/mmcblk0p4".toList "mkfs.ext4 -L rootfs_data /dev/mmcblk0p4".toList :=
  ⟨(init_size_policy target_le mkfs_ok
      (world_with "" "/dev/mmcblk0p4" mode_blk (disk [] [] (some 104857600)))
      (volume_on "/dev/mmcblk0p4" 0) (disk [] [] (some 104857600)) 104857600
      rfl rfl rfl rfl (by decide)).1.mpr (by decide),
   (init_size_policy target_le mkfs_ok
      (world_with "" "/dev/mmcblk0p4" mode_blk (disk [] [] (some 104857599)))
      (volume_on "/dev/mmcblk0p4" 0) (disk [] [] (some 104857599)) 104857599
      rfl rfl rfl rfl (by decide)).2.mpr (by decide)⟩

/-- C4: for a volume whose stored type is FS_EXT4 or FS_F2FS, on a device
that can be opened and on which no filesystem is detected,
`overlaypart_volume_init` runs the command of the stored type, whatever the
capacity query answers (and also when it fails). -/
theorem init_hint_wins (T : Target) (system : World → List Char → Int × World) (w : World)
    (p : overlaypart_volume) (dev : Device)
    (hnone : (overlaypart_volume_identify T w p.v).1 = T.FS_NONE)
    (hopen : w.fopen p.v.blk = some dev) :
    (p.fstype = T.FS_EXT4 →
      overlaypart_volume_init T system w p
        = formats_with system w p.v.blk (command_ext4 T p.v.blk)) ∧
    (p.fstype = T.FS_F2FS →
      overlaypart_volume_init T system w p
        = formats_with system w p.v.blk (command_f2fs T p.v.blk)) := by
  rw [init_of_blank T system w p dev hnone hopen]
  constructor
  · intro h
    rw [h, if_neg T.ext4_ne_none, if_pos rfl]
  · intro h
    rw [h, if_neg T.f2fs_ne_none, if_neg T.f2fs_ne_ext4, if_pos rfl]

set_option maxRecDepth 8192 in
theorem init_hint_wins_witness :
    overlaypart_volume_init target_le mkfs_ok
        (world_with "" "/dev/mmcblk0p4" mode_blk (disk [] [] (some 0x40000000)))
        (volume_on "/dev/mmcblk0p4" target_le.FS_EXT4)
      = formats_with mkfs_ok
          (world_with "" "/dev/mmcblk0p4" mode_blk (disk [] [] (some 0x40000000)))
          "/dev/mmcblk0p4".toList "mkfs.ext4 -L rootfs_data /dev/mmcblk0p4".toList
    ∧ overlaypart_volume_init target_le mkfs_ok
        (world_with "" "/dev/mmcblk0p4" mode_blk (disk [] [] (some 4096)))
        (volume_on "/dev/mmcblk0p4" target_le.FS_F2FS)
      = formats_with mkfs_ok
          (world_with "" "/dev/mmcblk0p4" mode_blk (disk [] [] (some 4096)))
          "/dev/mmcblk0p4".toList "mkfs.f2fs -l rootfs_data /dev/mmcblk0p4".toList :=
  ⟨(init_hint_wins target_le mkfs_ok
      (world_with "" "/dev/mmcblk0p4" mode_blk (disk [] [] (some 0x40000000)))
      (volume_on "/dev/mmcblk0p4" target_le.FS_EXT4) (disk [] [] (some 0x40000000))
      rfl rfl).1 rfl,
   (init_hint_wins target_le mkfs_ok
      (world_with "" "/dev/mmcblk0p4" mode_blk (disk [] [] (some 4096)))
      (volume_on "/dev/mmcblk0p4" target_le.FS_F2FS) (disk [] [] (some 4096))
      rfl rfl).2 rfl⟩


/-! ## Claims about `overlaypart_volume_find` -/

/-- What a successful `overlaypart_volume_find` went through: the name is
the one served, /proc/cmdline was read, the scan left the path in
`buffer_dev`, the path is not empty and stats with a device number, and the
stored type is FS_NONE because `buffer_fstype` is never filled; the heap is
what the copy of the path left. -/
theorem find_some (T : Target) (w : World) (name : List Char) (p : overlaypart_volume)
    (ev : List Event) (heap : Heap)
    (h : overlaypart_volume_find T w name = .ok (some p, ev, heap)) :
    name = "rootfs_data".toList ∧
    ∃ text, w.proc_cmdline = some text ∧
      scan_loop T.COMMAND_LINE_SIZE (text.length + 1) (FILE.start text) [] = .ok p.v.blk ∧
      p.v.blk ≠ [] ∧ (∃ st, w.stat p.v.blk = some st ∧ st.st_rdev ≠ 0) ∧
      p.v.name = "rootfs_data".toList ∧ p.fstype = T.FS_NONE ∧
      ev = [Event.fopen "/proc/cmdline".toList, Event.stat p.v.blk] ∧
      heap = calloc_strcpy T p.v.blk := by
  unfold overlaypart_volume_find overlaypart_volume_find_fuel at h
  by_cases hname : name = "rootfs_data".toList
  · refine ⟨hname, ?_⟩
    simp only [hname, ne_eq, not_true_eq_false, if_false] at h
    cases hcmd : w.proc_cmdline with
    | none => simp [hcmd] at h
    | some text =>
      refine ⟨text, rfl, ?_⟩
      simp only [hcmd, Option.getD_some] at h
      cases hscan : scan_loop T.COMMAND_LINE_SIZE (text.length + 1) (FILE.start text) [] with
      | error e => simp [hscan] at h
      | ok buffer_dev =>
        simp only [hscan] at h
        by_cases hempty : buffer_dev = []
        · simp [hempty] at h
        · simp only [hempty, if_false] at h
          cases hstat : w.stat buffer_dev with
          | none => simp [hstat] at h
          | some st =>
            simp only [hstat] at h
            by_cases hrdev : st.st_rdev = 0
            · simp [hrdev] at h
            · simp only [hrdev, if_false, Except.ok.injEq, Prod.mk.injEq, Option.some.injEq] at h
              obtain ⟨hp, hev, hheap⟩ := h
              subst hp hev hheap
              exact ⟨rfl, hempty, ⟨st, hstat, hrdev⟩, rfl, rfl, rfl, rfl⟩
  · rw [if_pos hname] at h
    simp at h

/-- C5: on the boot line of the specification, with /dev/mmcblk0p4 a block
device, `overlaypart_volume_find` returns the volume on /dev/mmcblk0p4 with
stored type FS_NONE, and so it does for `overlayfstype=ext4`: the token
`overlayfstype=` is never read, the stored type is neither FS_F2FS nor
FS_EXT4.  (The path leaves the heap intact.) -/
theorem find_ignores_overlayfstype :
    overlaypart_volume_find target_le
        (world_with "console=ttyS0 overlay=/dev/mmcblk0p4 overlayfstype=f2fs" "/dev/mmcblk0p4"
          mode_blk (disk [] [] none)) "rootfs_data".toList
      = .ok (some (volume_on "/dev/mmcblk0p4" target_le.FS_NONE),
          [Event.fopen "/proc/cmdline".toList, Event.stat "/dev/mmcblk0p4".toList],
          Heap.intact)
    ∧ overlaypart_volume_find target_le
        (world_with "console=ttyS0 overlay=/dev/mmcblk0p4 overlayfstype=ext4" "/dev/mmcblk0p4"
          mode_blk (disk [] [] none)) "rootfs_data".toList
      = .ok (some (volume_on "/dev/mmcblk0p4" target_le.FS_NONE),
          [Event.fopen "/proc/cmdline".toList, Event.stat "/dev/mmcblk0p4".toList],
          Heap.intact)
    ∧ target_le.FS_NONE ≠ target_le.FS_F2FS ∧ target_le.FS_NONE ≠ target_le.FS_EXT4 :=
  ⟨rfl, rfl, by decide, by decide⟩

/-- C8: for a name other than "rootfs_data", `overlaypart_volume_find`
returns NULL in every world and makes no call: /proc/cmdline is not opened
and no path is stat-ed; the heap is left as it was. -/
theorem find_other_name (T : Target) (w : World) (name : List Char)
    (h : name ≠ "rootfs_data".toList) :
    overlaypart_volume_find T w name = .ok (none, [], Heap.intact) := by
  unfold overlaypart_volume_find overlaypart_volume_find_fuel
  exact if_pos h

theorem find_other_name_witness :
    overlaypart_volume_find target_le
        (world_with "console=ttyS0 overlay=/dev/mmcblk0p4" "/dev/mmcblk0p4" mode_blk
          (disk [] [] none)) "rootfs".toList = .ok (none, [], Heap.intact) :=
  find_other_name target_le _ "rootfs".toList (by decide)

/-! ## The scan of /proc/cmdline -/

theorem fgetc_eq {α : Type} (fp : FILE α) :
    fgetc fp = match fp.unread with
      | [] => (none, { fp with eof := true })
      | c :: _ => (some c, { fp with pos := fp.pos + 1 }) := by
  unfold fgetc FILE.unread
  rw [← List.head?_drop]
  cases fp.content.drop fp.pos <;> rfl

theorem unread_length {α : Type} (fp : FILE α) :
    fp.unread.length = fp.content.length - fp.pos := by
  simp [FILE.unread]

theorem lit_run_le (lit input : List Char) : lit_run lit input ≤ lit.length := by
  induction lit generalizing input with
  | nil => simp [lit_run]
  | cons c cs ih =>
    cases input with
    | nil => simp [lit_run]
    | cons d ds =>
      simp only [lit_run]
      split
      · have := ih ds
        simp only [List.length_cons]
        omega
      · simp

theorem lit_run_le_input (lit input : List Char) : lit_run lit input ≤ input.length := by
  induction lit generalizing input with
  | nil => simp [lit_run]
  | cons c cs ih =>
    cases input with
    | nil => simp [lit_run]
    | cons d ds =>
      simp only [lit_run]
      split
      · have := ih ds
        simp only [List.length_cons]
        omega
      · simp

theorem lit_run_full (lit input : List Char) (h : lit_run lit input = lit.length) :
    lit <+: input := by
  induction lit generalizing input with
  | nil => exact List.nil_prefix
  | cons c cs ih =>
    cases input with
    | nil => simp [lit_run] at h
    | cons d ds =>
      simp only [lit_run] at h
      split at h
      · rename_i hd
        subst hd
        have := ih ds (by simpa using h)
        exact (List.prefix_cons_inj d).mpr this
      · simp at h

theorem lit_run_of_prefix (lit tail : List Char) : lit_run lit (lit ++ tail) = lit.length := by
  induction lit with
  | nil => simp [lit_run]
  | cons c cs ih => simp [lit_run, ih]

/-- A run of agreement with a literal free of white space ends before the
first white space of the input. -/
theorem lit_run_stops_at_space (lit q tail : List Char) (s : Char)
    (hlit : ∀ c ∈ lit, isspace c = false) (hs : isspace s = true) :
    lit_run lit (q ++ s :: tail) ≤ q.length := by
  induction lit generalizing q with
  | nil => simp [lit_run]
  | cons c cs ih =>
    cases q with
    | nil =>
      simp only [List.nil_append, lit_run, List.length_nil, Nat.le_zero_eq]
      split
      · rename_i hsc
        have := hlit c (List.mem_cons_self c cs)
        rw [← hsc, hs] at this
        cases this
      · rfl
    | cons d ds =>
      rw [List.cons_append]
      simp only [lit_run, List.length_cons]
      split
      · have := ih ds (fun x hx => hlit x (List.mem_cons_of_mem c hx))
        omega
      · omega

/-- What the ordinary characters of a format do to a stream, by the length of
the run on which the input agrees with them. -/
theorem scan_literal_eq (lit : List Char) (fp : FILE Char) :
    scan_literal lit fp =
      if lit_run lit fp.unread = lit.length then
        (none, { fp with pos := fp.pos + lit.length })
      else if fp.pos + lit_run lit fp.unread < fp.content.length then
        (some 0, { fp with pos := fp.pos + lit_run lit fp.unread, eof := false })
      else
        (some EOF, { fp with pos := fp.pos + lit_run lit fp.unread, eof := true }) := by
  induction lit generalizing fp with
  | nil => simp [scan_literal, lit_run]
  | cons c cs ih =>
    have hlen := unread_length fp
    rw [scan_literal, fgetc_eq]
    cases hu : fp.unread with
    | nil =>
      rw [hu] at hlen
      simp only [List.length_nil] at hlen
      have : ¬ fp.pos < fp.content.length := by omega
      simp [lit_run, this]
    | cons d ds =>
      rw [hu] at hlen
      simp only [List.length_cons] at hlen
      have hnext : ({ fp with pos := fp.pos + 1 } : FILE Char).unread = ds := by
        have : fp.unread.drop 1 = ds := by rw [hu]; rfl
        rw [← this]
        simp [FILE.unread, List.drop_drop, Nat.add_comm]
      by_cases hdc : d = c
      · simp only [hdc, if_true, lit_run, List.length_cons, Nat.add_right_cancel_iff]
        rw [ih, hnext]
        have e1 : fp.pos + 1 + cs.length = fp.pos + (cs.length + 1) := by omega
        have e2 : fp.pos + 1 + lit_run cs ds = fp.pos + (lit_run cs ds + 1) := by omega
        simp only [e1, e2]
      · have hlt : fp.pos < fp.content.length := by omega
        simp [hdc, lit_run, ungetc, hlt]


theorem overlay_length : "overlay=".toList.length = 8 := rfl

theorem overlay_no_space : ∀ c ∈ "overlay=".toList, isspace c = false := by decide

/-- One call of `fscanf` at a place where the input does not continue with
`overlay=`: a matching failure (0) while input is left, `EOF` at its end; the
buffer is not written. -/
theorem fscanf_overlay_no_match (size : Nat) (fp : FILE Char) (buf : List Char)
    (hk : lit_run "overlay=".toList fp.unread ≠ 8) :
    fscanf_overlay size fp buf =
      if fp.pos + lit_run "overlay=".toList fp.unread < fp.content.length then
        .ok (0, { fp with pos := fp.pos + lit_run "overlay=".toList fp.unread, eof := false }, buf)
      else
        .ok (EOF, { fp with pos := fp.pos + lit_run "overlay=".toList fp.unread, eof := true },
          buf) := by
  unfold fscanf_overlay
  rw [scan_literal_eq, overlay_length, if_neg hk]
  by_cases h : fp.pos + lit_run "overlay=".toList fp.unread < fp.content.length
  · simp only [h, if_true]
  · simp only [h, if_false]

theorem unread_drop {α : Type} (fp : FILE α) (k : Nat) (e : Bool) :
    ({ fp with pos := fp.pos + k, eof := e } : FILE α).unread = fp.unread.drop k := by
  simp [FILE.unread, List.drop_drop, Nat.add_comm]

theorem unread_skip {α : Type} (fp : FILE α) (k : Nat) (e : Bool) :
    (fseek_cur ({ fp with pos := fp.pos + k, eof := e } : FILE α) 1).unread
      = fp.unread.drop (k + 1) := by
  simp only [fseek_cur, FILE.unread, List.drop_drop]
  congr 1

/-- The loop on a text without `overlay=` leaves `buffer_dev` as it was. -/
theorem scan_loop_no_match (size : Nat) (fuel : Nat) (fp : FILE Char) (buf : List Char)
    (heof : fp.eof = false) (hpos : fp.pos ≤ fp.content.length)
    (hfuel : fp.content.length - fp.pos + 1 ≤ fuel)
    (hno : ¬ "overlay=".toList <:+: fp.unread) :
    scan_loop size fuel fp buf = .ok buf := by
  induction fuel generalizing fp with
  | zero => omega
  | succ n ih =>
    have hk : lit_run "overlay=".toList fp.unread ≠ 8 := by
      intro h
      exact hno (lit_run_full _ _ (h.trans overlay_length.symm)).isInfix
    unfold scan_loop
    simp only [feof, heof, Bool.false_eq_true, if_false, fscanf_overlay_no_match size fp buf hk]
    by_cases hlt : fp.pos + lit_run "overlay=".toList fp.unread < fp.content.length
    · simp only [hlt, if_true, ne_eq, not_true_eq_false, if_false]
      apply ih
      · rfl
      · simp only [fseek_cur]
        omega
      · simp only [fseek_cur]
        omega
      · intro hin
        apply hno
        rw [unread_skip] at hin
        exact hin.trans (List.drop_suffix _ _).isInfix
    · simp only [hlt, if_false]
      rfl

theorem takeWhile_word (path tail : List Char) (hpath : ∀ c ∈ path, isspace c = false)
    (htail : tail = [] ∨ ∃ c t, tail = c :: t ∧ isspace c = true) :
    (path ++ tail).takeWhile (fun c => !isspace c) = path := by
  induction path with
  | nil =>
    rcases htail with h | ⟨c, t, h, hc⟩
    · simp [h]
    · simp [h, hc]
  | cons a l ih =>
    have ha := hpath a (List.mem_cons_self a l)
    simp only [List.cons_append, List.takeWhile_cons, ha, Bool.not_false, if_true]
    rw [ih (fun x hx => hpath x (List.mem_cons_of_mem a hx))]

/-- The `%s` directive at the start of a word that fits the array reads
exactly that word. -/
theorem scan_s_word (size : Nat) (fp : FILE Char) (path tail : List Char)
    (hu : fp.unread = path ++ tail) (hne : path ≠ [])
    (hpath : ∀ c ∈ path, isspace c = false)
    (htail : tail = [] ∨ ∃ c t, tail = c :: t ∧ isspace c = true)
    (hfit : path.length < size) :
    ∃ fp1, scan_s size fp = .ok (some path, fp1) := by
  obtain ⟨a, l, rfl⟩ := List.exists_cons_of_ne_nil hne
  have ha := hpath a (List.mem_cons_self a l)
  have hu1 : fp.content.drop fp.pos = a :: l ++ tail := hu
  have hdw : (a :: l ++ tail).dropWhile isspace = a :: l ++ tail := by
    simp [List.dropWhile_cons, ha]
  have htw : (a :: l ++ tail).takeWhile (fun c => !isspace c) = a :: l :=
    takeWhile_word (a :: l) tail hpath htail
  unfold scan_s
  simp only [hu1, hdw, htw]
  have hsz : ¬ size < (a :: l).length + 1 := by omega
  simp only [hsz, if_false]
  exact ⟨_, rfl⟩

/-- The loop on a text whose first `overlay=` starts a token: everything
before the token is passed over and the path of the token ends up in
`buffer_dev`. -/
theorem scan_loop_token (size : Nat) (fuel : Nat) (fp : FILE Char) (buf q path tail : List Char)
    (heof : fp.eof = false)
    (hu : fp.unread = q ++ ("overlay=".toList ++ (path ++ tail)))
    (hq : q = [] ∨ ∃ q1 s, q = q1 ++ [s] ∧ isspace s = true)
    (hno : ¬ "overlay=".toList <:+: q)
    (hfuel : q.length + 1 ≤ fuel)
    (hne : path ≠ []) (hpath : ∀ c ∈ path, isspace c = false)
    (htail : tail = [] ∨ ∃ c t, tail = c :: t ∧ isspace c = true)
    (hfit : path.length < size) :
    scan_loop size fuel fp buf = .ok (c_string path) := by
  induction fuel generalizing fp q with
  | zero => omega
  | succ n ih =>
    unfold scan_loop
    simp only [feof, heof, Bool.false_eq_true, if_false]
    rcases hq with rfl | ⟨q1, s, rfl, hs⟩
    · -- the token starts here
      rw [List.nil_append] at hu
      have hk : lit_run "overlay=".toList fp.unread = "overlay=".toList.length := by
        rw [hu, lit_run_of_prefix]
      have hu1 : ({ fp with pos := fp.pos + "overlay=".toList.length } : FILE Char).unread
          = path ++ tail := by
        have := unread_drop fp "overlay=".toList.length fp.eof
        simp only [hu, List.drop_left] at this
        exact this
      obtain ⟨fp1, h1⟩ := scan_s_word size _ path tail hu1 hne hpath htail hfit
      unfold fscanf_overlay
      rw [scan_literal_eq, if_pos hk]
      simp only [h1]
      rfl
    · -- white space lies ahead: no match here
      have hle : lit_run "overlay=".toList fp.unread ≤ q1.length := by
        rw [hu, List.append_assoc, List.singleton_append]
        exact lit_run_stops_at_space _ q1 _ s overlay_no_space hs
      have hk : lit_run "overlay=".toList fp.unread ≠ 8 := by
        intro h
        have hp := lit_run_full _ _ (h.trans overlay_length.symm)
        rw [hu, List.append_assoc] at hp
        have hp1 : "overlay=".toList <+: q1 :=
          List.prefix_of_prefix_length_le hp (List.prefix_append q1 _)
            (by rw [overlay_length]; omega)
        exact hno (hp1.isInfix.trans (List.prefix_append q1 [s]).isInfix)
      have hlen := unread_length fp
      rw [hu] at hlen
      simp only [List.length_append, List.length_cons, List.length_nil] at hlen
      rw [fscanf_overlay_no_match size fp buf hk]
      generalize lit_run "overlay=".toList fp.unread = k at hle hk
      have hlt : fp.pos + k < fp.content.length := by omega
      simp only [hlt, if_true, ne_eq, not_true_eq_false, if_false]
      have hdrop : (q1 ++ [s]).drop (k + 1) = [] ∨
          ∃ q2 s2, (q1 ++ [s]).drop (k + 1) = q2 ++ [s2] ∧ isspace s2 = true := by
        by_cases hend : k = q1.length
        · left
          apply List.drop_eq_nil_of_le
          simp only [List.length_append, List.length_cons, List.length_nil]
          omega
        · right
          refine ⟨q1.drop (k + 1), s, ?_, hs⟩
          rw [List.drop_append_of_le_length (by omega)]
      apply ih (fseek_cur { fp with pos := fp.pos + k, eof := false } 1) ((q1 ++ [s]).drop (k + 1))
      · rfl
      · rw [unread_skip, hu, List.drop_append_of_le_length
          (by simp only [List.length_append, List.length_cons, List.length_nil]; omega)]
      · exact hdrop
      · intro hin
        exact hno (hin.trans (List.drop_suffix _ _).isInfix)
      · simp only [List.length_drop, List.length_append, List.length_cons, List.length_nil] at hfuel ⊢
        omega


/-- One iteration more than the unread part has characters is enough fuel:
the loop is then left through its own exits. -/
theorem scan_loop_fuel (size : Nat) (fuel : Nat) (fp : FILE Char) (buf : List Char)
    (hpos : fp.pos ≤ fp.content.length) (hfuel : fp.content.length - fp.pos + 1 ≤ fuel) :
    scan_loop size fuel fp buf ≠ .error Fault.out_of_fuel := by
  induction fuel generalizing fp with
  | zero => omega
  | succ n ih =>
    unfold scan_loop
    by_cases heof : feof fp = true
    · simp only [heof, if_true, ne_eq, reduceCtorEq, not_false_eq_true]
    · simp only [heof, Bool.false_eq_true, if_false]
      by_cases hk : lit_run "overlay=".toList fp.unread = 8
      · unfold fscanf_overlay
        rw [scan_literal_eq, overlay_length, if_pos hk]
        simp only [scan_s]
        split_ifs <;> simp [EOF]
      · rw [fscanf_overlay_no_match size fp buf hk]
        by_cases hlt : fp.pos + lit_run "overlay=".toList fp.unread < fp.content.length
        · simp only [hlt, if_true, ne_eq, not_true_eq_false, if_false]
          apply ih
          · simp only [fseek_cur]
            omega
          · simp only [fseek_cur]
            omega
        · simp only [hlt, if_false]
          simp [EOF]

/-! ## Claims about what the scan finds -/

/-- The fuel `overlaypart_volume_find` gives its loop never runs out. -/
theorem find_fuel (T : Target) (w : World) (name : List Char) :
    overlaypart_volume_find T w name ≠ .error Fault.out_of_fuel := by
  unfold overlaypart_volume_find overlaypart_volume_find_fuel
  by_cases hname : name ≠ "rootfs_data".toList
  · rw [if_pos hname]
    exact fun h => nomatch h
  · rw [if_neg hname]
    cases hcmd : w.proc_cmdline with
    | none => exact fun h => nomatch h
    | some text =>
      simp only [Option.getD_some]
      have hf := scan_loop_fuel T.COMMAND_LINE_SIZE (text.length + 1) (FILE.start text) []
        (Nat.zero_le _) (by simp [FILE.start])
      cases hscan : scan_loop T.COMMAND_LINE_SIZE (text.length + 1) (FILE.start text) [] with
      | error e =>
        rw [hscan] at hf
        simpa using hf
      | ok buffer_dev =>
        simp only
        by_cases hempty : buffer_dev = []
        · rw [if_pos hempty]
          exact fun h => nomatch h
        · rw [if_neg hempty]
          cases w.stat buffer_dev with
          | none => exact fun h => nomatch h
          | some st =>
            simp only
            by_cases hrdev : st.st_rdev = 0
            · rw [if_pos hrdev]
              exact fun h => nomatch h
            · rw [if_neg hrdev]
              exact fun h => nomatch h

/-- C6, as the code has it: when the text of /proc/cmdline does not contain
the characters `overlay=` anywhere, `overlaypart_volume_find("rootfs_data")`
returns NULL, whatever `stat` would answer; no path is stat-ed and the heap
is left as it was. -/
theorem find_none_without_overlay (T : Target) (w : World) (text : List Char)
    (hcmd : w.proc_cmdline = some text) (hno : ¬ "overlay=".toList <:+: text) :
    overlaypart_volume_find T w "rootfs_data".toList
      = .ok (none, [Event.fopen "/proc/cmdline".toList], Heap.intact) := by
  have hscan : scan_loop T.COMMAND_LINE_SIZE (text.length + 1) (FILE.start text) [] = .ok [] :=
    scan_loop_no_match _ _ (FILE.start text) [] rfl (Nat.zero_le _) (by simp [FILE.start]) hno
  unfold overlaypart_volume_find overlaypart_volume_find_fuel
  simp only [ne_eq, not_true_eq_false, if_false, hcmd, Option.getD_some, hscan, if_true]

theorem find_none_without_overlay_witness :
    overlaypart_volume_find target_le
        (world_with "console=ttyS0 root=/dev/mmcblk0p2 rootwait" "/dev/mmcblk0p2" mode_blk
          (disk [] [] none)) "rootfs_data".toList
      = .ok (none, [Event.fopen "/proc/cmdline".toList], Heap.intact) :=
  find_none_without_overlay target_le _ "console=ttyS0 root=/dev/mmcblk0p2 rootwait".toList rfl
    (by decide)

/-- C6 fails as stated: the text `xoverlay=/dev/sda2` has no
whitespace-delimited token that begins with `overlay=`, yet
`overlaypart_volume_find` returns the volume on /dev/sda2. -/
theorem find_inside_token_counterexample :
    first_overlay_path "xoverlay=/dev/sda2".toList = none
    ∧ overlaypart_volume_find target_le
        (world_with "xoverlay=/dev/sda2" "/dev/sda2" mode_blk (disk [] [] none))
        "rootfs_data".toList
      = .ok (some (volume_on "/dev/sda2" target_le.FS_NONE),
          [Event.fopen "/proc/cmdline".toList, Event.stat "/dev/sda2".toList], Heap.intact) :=
  ⟨rfl, rfl⟩

theorem c_string_of_no_nul (path : List Char) (h : ∀ c ∈ path, c ≠ '\x00') :
    c_string path = path := by
  unfold c_string
  rw [List.takeWhile_eq_self_iff]
  intro c hc
  simpa using h c hc

/-- C7, as the code has it: when the first `overlay=` of the text starts a
whitespace-delimited token `overlay=<path>` (nothing before the token
contains `overlay=`), with a non-empty path free of NUL that fits
`buffer_dev` and stats as a device, `overlaypart_volume_find("rootfs_data")`
returns the volume whose `blk` is exactly that path, whatever comes before
and after the token; the heap is what the copy of the path left. -/
theorem find_first_token (T : Target) (w : World) (pre path tail : List Char) (st : stat_t)
    (hcmd : w.proc_cmdline = some (pre ++ ("overlay=".toList ++ (path ++ tail))))
    (hpre : pre = [] ∨ ∃ q s, pre = q ++ [s] ∧ isspace s = true)
    (hno : ¬ "overlay=".toList <:+: pre)
    (hne : path ≠ []) (hpath : ∀ c ∈ path, isspace c = false ∧ c ≠ '\x00')
    (htail : tail = [] ∨ ∃ c t, tail = c :: t ∧ isspace c = true)
    (hfit : path.length < T.COMMAND_LINE_SIZE)
    (hstat : w.stat path = some st) (hdev : st.st_rdev ≠ 0) :
    overlaypart_volume_find T w "rootfs_data".toList
      = .ok (some { v := { name := "rootfs_data".toList, blk := path }, fstype := T.FS_NONE },
          [Event.fopen "/proc/cmdline".toList, Event.stat path], calloc_strcpy T path) := by
  have hscan : scan_loop T.COMMAND_LINE_SIZE
      ((pre ++ ("overlay=".toList ++ (path ++ tail))).length + 1)
      (FILE.start (pre ++ ("overlay=".toList ++ (path ++ tail)))) [] = .ok path := by
    have h := scan_loop_token T.COMMAND_LINE_SIZE
      ((pre ++ ("overlay=".toList ++ (path ++ tail))).length + 1)
      (FILE.start (pre ++ ("overlay=".toList ++ (path ++ tail)))) [] pre path tail rfl rfl hpre hno
      (by simp only [List.length_append]; omega) hne (fun c hc => (hpath c hc).1) htail hfit
    rw [c_string_of_no_nul path (fun c hc => (hpath c hc).2)] at h
    exact h
  unfold overlaypart_volume_find overlaypart_volume_find_fuel
  simp only [ne_eq, not_true_eq_false, if_false, hcmd, Option.getD_some, hscan, hne, hstat, hdev]

theorem find_first_token_witness :
    overlaypart_volume_find target_le
        (world_with "console=ttyS0 overlay=/dev/mmcblk0p4 overlayfstype=f2fs" "/dev/mmcblk0p4"
          mode_blk (disk [] [] none)) "rootfs_data".toList
      = .ok (some { v := { name := "rootfs_data".toList, blk := "/dev/mmcblk0p4".toList },
                    fstype := target_le.FS_NONE },
          [Event.fopen "/proc/cmdline".toList, Event.stat "/dev/mmcblk0p4".toList],
          Heap.intact) :=
  find_first_token target_le _ "console=ttyS0 ".toList "/dev/mmcblk0p4".toList
    " overlayfstype=f2fs".toList { st_mode := mode_blk, st_rdev := 0xb304 } rfl
    (Or.inr ⟨"console=ttyS0".toList, ' ', rfl, rfl⟩) (by decide) (by decide) (by decide)
    (Or.inr ⟨' ', "overlayfstype=f2fs".toList, rfl, rfl⟩) (by decide) rfl (by decide)

/-- C7 fails as stated: in `xoverlay=/dev/sda1 overlay=/dev/sda2` the first
whitespace-delimited token `overlay=<path>` names /dev/sda2, which is a
block device, yet `overlaypart_volume_find` takes /dev/sda1 from inside the
token before it, fails to stat it and returns NULL. -/
theorem find_first_token_counterexample :
    first_overlay_path "xoverlay=/dev/sda1 overlay=/dev/sda2".toList = some "/dev/sda2".toList
    ∧ (world_with "xoverlay=/dev/sda1 overlay=/dev/sda2" "/dev/sda2" mode_blk
          (disk [] [] none)).stat "/dev/sda2".toList
        = some { st_mode := mode_blk, st_rdev := 0xb304 }
    ∧ overlaypart_volume_find target_le
        (world_with "xoverlay=/dev/sda1 overlay=/dev/sda2" "/dev/sda2" mode_blk
          (disk [] [] none)) "rootfs_data".toList
      = .ok (none, [Event.fopen "/proc/cmdline".toList, Event.stat "/dev/sda1".toList],
          Heap.intact) :=
  ⟨rfl, rfl, rfl⟩

/-- C10, as the code has it: every volume `overlaypart_volume_find` returns
has a non-empty `blk`, and `stat` of that path succeeded with a non-zero
device number `st_rdev` (a device special file, block or character). -/
theorem find_volume_is_device (T : Target) (w : World) (name : List Char)
    (p : overlaypart_volume) (ev : List Event) (heap : Heap)
    (h : overlaypart_volume_find T w name = .ok (some p, ev, heap)) :
    p.v.blk ≠ [] ∧ ∃ st, w.stat p.v.blk = some st ∧ st.st_rdev ≠ 0 := by
  obtain ⟨_, _, _, _, hne, hst, _⟩ := find_some T w name p ev heap h
  exact ⟨hne, hst⟩

theorem find_volume_is_device_witness :
    (volume_on "/dev/mmcblk0p4" target_le.FS_NONE).v.blk ≠ []
    ∧ ∃ st, (world_with "console=ttyS0 overlay=/dev/mmcblk0p4" "/dev/mmcblk0p4" mode_blk
              (disk [] [] none)).stat (volume_on "/dev/mmcblk0p4" target_le.FS_NONE).v.blk
          = some st ∧ st.st_rdev ≠ 0 :=
  find_volume_is_device target_le
    (world_with "console=ttyS0 overlay=/dev/mmcblk0p4" "/dev/mmcblk0p4" mode_blk (disk [] [] none))
    "rootfs_data".toList (volume_on "/dev/mmcblk0p4" target_le.FS_NONE)
    [Event.fopen "/proc/cmdline".toList, Event.stat "/dev/mmcblk0p4".toList] Heap.intact rfl

/-- C10 fails as stated: with `overlay=/dev/ttyS1`, a character device,
`overlaypart_volume_find` returns a volume although `S_ISBLK` is false for
the path. -/
theorem find_char_device_counterexample :
    overlaypart_volume_find target_le
        (world_with "overlay=/dev/ttyS1" "/dev/ttyS1" mode_chr (disk [] [] none))
        "rootfs_data".toList
      = .ok (some (volume_on "/dev/ttyS1" target_le.FS_NONE),
          [Event.fopen "/proc/cmdline".toList, Event.stat "/dev/ttyS1".toList], Heap.intact)
    ∧ ((world_with "overlay=/dev/ttyS1" "/dev/ttyS1" mode_chr (disk [] [] none)).stat
          "/dev/ttyS1".toList).map S_ISBLK = some false :=
  ⟨rfl, rfl⟩


/-! ## Truncated reads and double signatures -/

theorem fread_u32_zero (c : List Nat) (off : Nat) (e : Bool) :
    (fread_u32 { content := c, pos := off, eof := e } [0, 0, 0, 0]).1
      = [c.getD off 0, c.getD (off + 1) 0, c.getD (off + 2) 0, c.getD (off + 3) 0] := by
  simp only [fread_u32]
  induction off generalizing c with
  | zero =>
    match c with
    | [] => rfl
    | [_] => rfl
    | [_, _] => rfl
    | [_, _, _] => rfl
    | _ :: _ :: _ :: _ :: _ => simp
  | succ n ih =>
    match c with
    | [] => rfl
    | x :: c1 =>
      have := ih c1
      simp only [List.drop_succ_cons, this]
      simp [List.getD_cons_succ, Nat.add_right_comm]

/-- What `overlaypart_volume_identify` returns on a device that opens and
seeks, however many bytes it has: bytes that are not there read as the
zeros `magic` was set to. -/
theorem identify_of_seekable (T : Target) (w : World) (v : volume) (dev : Device)
    (hopen : w.fopen v.blk = some dev) (hseek : dev.seekable = true) :
    (overlaypart_volume_identify T w v).1
      = if le32_at dev.content 0x438 % 0x10000 = 0xef53 then T.FS_EXT4
        else if le32_at dev.content 0x400 = 0xF2F52010 then T.FS_F2FS
        else T.FS_NONE := by
  simp only [overlaypart_volume_identify, hopen, hseek, fseek_set, FILE.start, if_true,
    fread_u32_content, fread_u32_zero, true_and,
    load32_eq_cpu_to_le32, le32_to_cpu_load32, land_ffff, le32_at]

/-- What `overlaypart_volume_identify` returns on a device that opens but
does not seek: neither probe is made. -/
theorem identify_of_unseekable (T : Target) (w : World) (v : volume) (dev : Device)
    (hopen : w.fopen v.blk = some dev) (hseek : dev.seekable = false) :
    (overlaypart_volume_identify T w v).1 = T.FS_NONE := by
  simp [overlaypart_volume_identify, hopen, hseek, fseek_set]

theorem getD_beyond (c : List Nat) (i : Nat) (h : c.length ≤ i) : c.getD i 0 = 0 := by
  simp [List.getD_eq_getElem?_getD, List.getElem?_eq_none h]


/-- C11, as the code has it: on a device that opens and seeks, a read at
0x400 that finds fewer than four bytes never yields FS_F2FS; a read at 0x438
that finds fewer than four bytes yields FS_EXT4 exactly when at least two
bytes are there and they are 0x53 0xef (the value of `fread` is not looked
at, the bytes read are compared as they are, the missing ones as zero). -/
theorem identify_truncated (T : Target) (w : World) (v : volume) (dev : Device)
    (hopen : w.fopen v.blk = some dev) (hseek : dev.seekable = true) :
    (dev.content.length < 0x404 → (overlaypart_volume_identify T w v).1 ≠ T.FS_F2FS) ∧
    (dev.content.length < 0x43c →
      ((overlaypart_volume_identify T w v).1 = T.FS_EXT4 ↔
        0x43a ≤ dev.content.length ∧ dev.content.getD 0x438 0 % 256 = 0x53 ∧
          dev.content.getD 0x439 0 % 256 = 0xef)) := by
  rw [identify_of_seekable T w v dev hopen hseek]
  constructor
  · intro hlen
    have h3 : dev.content.getD (0x400 + 3) 0 = 0 := getD_beyond _ _ (by omega)
    have hne : le32_at dev.content 0x400 ≠ 0xF2F52010 := by
      simp only [le32_at, h3]
      omega
    rw [if_neg hne]
    split
    · exact T.f2fs_ne_ext4.symm
    · exact T.f2fs_ne_none.symm
  · intro _
    have hiff : le32_at dev.content 0x438 % 0x10000 = 0xef53 ↔
        dev.content.getD 0x438 0 % 256 = 0x53 ∧ dev.content.getD 0x439 0 % 256 = 0xef := by
      simp only [le32_at, Nat.reduceAdd]
      omega
    constructor
    · intro h
      have hsig : le32_at dev.content 0x438 % 0x10000 = 0xef53 := by
        by_contra hno
        rw [if_neg hno] at h
        split at h
        · exact T.f2fs_ne_ext4 h
        · exact T.ext4_ne_none h.symm
      obtain ⟨h0, h1⟩ := hiff.mp hsig
      refine ⟨?_, h0, h1⟩
      by_contra hshort
      rw [getD_beyond _ _ (by omega)] at h1
      simp at h1
    · rintro ⟨_, h0, h1⟩
      rw [if_pos (hiff.mpr ⟨h0, h1⟩)]

set_option maxRecDepth 8192 in
theorem identify_truncated_witness :
    (overlaypart_volume_identify target_le
        (world_with "" "/dev/mtdblock3" mode_blk (short_disk 0x400 [0x10, 0x20, 0xF5]))
        (volume_on "/dev/mtdblock3" 0).v).1 ≠ target_le.FS_F2FS
    ∧ ¬ (overlaypart_volume_identify target_le
        (world_with "" "/dev/mtdblock3" mode_blk (short_disk 0x438 [0x53]))
        (volume_on "/dev/mtdblock3" 0).v).1 = target_le.FS_EXT4 :=
  ⟨(identify_truncated target_le
      (world_with "" "/dev/mtdblock3" mode_blk (short_disk 0x400 [0x10, 0x20, 0xF5]))
      (volume_on "/dev/mtdblock3" 0).v (short_disk 0x400 [0x10, 0x20, 0xF5]) rfl rfl).1
      (lt_of_eq_of_lt (rfl : _ = 0x403) (by decide)),
   fun h =>
    have hlen : (short_disk 0x438 [0x53]).content.length < 0x43c :=
      lt_of_eq_of_lt (rfl : _ = 0x439) (by decide)
    have hshort : ¬ 0x43a ≤ (short_disk 0x438 [0x53]).content.length :=
      not_le_of_lt (lt_of_eq_of_lt (rfl : _ = 0x439) (by decide))
    hshort (((identify_truncated target_le
      (world_with "" "/dev/mtdblock3" mode_blk (short_disk 0x438 [0x53]))
      (volume_on "/dev/mtdblock3" 0).v (short_disk 0x438 [0x53]) rfl rfl).2 hlen).mp h).1⟩

set_option maxRecDepth 8192 in
/-- C11 fails as stated: a device that ends two bytes into the value at
0x438, with the bytes 0x53 0xef there, is identified as FS_EXT4 although
fewer than four bytes could be read. -/
theorem identify_truncated_counterexample :
    (short_disk 0x438 [0x53, 0xef]).content.length = 0x43a
    ∧ (overlaypart_volume_identify target_le
        (world_with "" "/dev/mtdblock3" mode_blk (short_disk 0x438 [0x53, 0xef]))
        (volume_on "/dev/mtdblock3" 0).v).1 = target_le.FS_EXT4 :=
  ⟨rfl, rfl⟩

/-- C12: on a device that opens and seeks and carries both signatures,
0xF2F52010 at 0x400 and 0xef53 in the low 16 bits at 0x438,
`overlaypart_volume_identify` returns FS_EXT4, the result of the probe made
last, which is not FS_NONE. -/
theorem identify_both_signatures (T : Target) (w : World) (v : volume) (dev : Device)
    (hopen : w.fopen v.blk = some dev) (hseek : dev.seekable = true)
    (_h400 : le32_at dev.content 0x400 = 0xF2F52010)
    (h438 : le32_at dev.content 0x438 % 0x10000 = 0xef53) :
    (overlaypart_volume_identify T w v).1 = T.FS_EXT4
    ∧ (overlaypart_volume_identify T w v).1 ≠ T.FS_NONE := by
  rw [identify_of_seekable T w v dev hopen hseek, if_pos h438]
  exact ⟨rfl, T.ext4_ne_none⟩

set_option maxRecDepth 8192 in
theorem identify_both_signatures_witness :
    (overlaypart_volume_identify target_be
        (world_with "" "/dev/sda1" mode_blk (disk [0x10, 0x20, 0xF5, 0xF2] [0x53, 0xef, 1, 0] none))
        (volume_on "/dev/sda1" 0).v).1 = target_be.FS_EXT4
    ∧ (overlaypart_volume_identify target_be
        (world_with "" "/dev/sda1" mode_blk (disk [0x10, 0x20, 0xF5, 0xF2] [0x53, 0xef, 1, 0] none))
        (volume_on "/dev/sda1" 0).v).1 ≠ target_be.FS_NONE :=
  identify_both_signatures target_be
    (world_with "" "/dev/sda1" mode_blk (disk [0x10, 0x20, 0xF5, 0xF2] [0x53, 0xef, 1, 0] none))
    (volume_on "/dev/sda1" 0).v (disk [0x10, 0x20, 0xF5, 0xF2] [0x53, 0xef, 1, 0] none)
    rfl rfl rfl rfl


/-! ## More claims about `overlaypart_volume_init` -/

/-- The run of `overlaypart_volume_init` when a filesystem is detected. -/
theorem init_of_found (T : Target) (system : World → List Char → Int × World) (w : World)
    (p : overlaypart_volume) (h : (overlaypart_volume_identify T w p.v).1 ≠ T.FS_NONE) :
    overlaypart_volume_init T system w p = .ok (0, w, [Event.fopen p.v.blk]) := by
  simp only [overlaypart_volume_init, ne_eq, h, not_false_eq_true, if_true,
    identify_events T w p.v]

/-- The run of `overlaypart_volume_init` when no filesystem is detected and
the device does not open: `fileno` gets a null pointer. -/
theorem init_of_unopenable (T : Target) (system : World → List Char → Int × World) (w : World)
    (p : overlaypart_volume) (hnone : (overlaypart_volume_identify T w p.v).1 = T.FS_NONE)
    (hopen : w.fopen p.v.blk = none) :
    overlaypart_volume_init T system w p = .error Fault.null_stream := by
  simp only [overlaypart_volume_init, hnone, ne_eq, not_true_eq_false, if_false, hopen]

/-- Every run of `overlaypart_volume_init` is of one of five kinds. -/
theorem init_cases (T : Target) (system : World → List Char → Int × World) (w : World)
    (p : overlaypart_volume) :
    overlaypart_volume_init T system w p = .ok (0, w, [Event.fopen p.v.blk])
    ∨ overlaypart_volume_init T system w p = .error Fault.null_stream
    ∨ overlaypart_volume_init T system w p
        = formats_with system w p.v.blk (command_ext4 T p.v.blk)
    ∨ overlaypart_volume_init T system w p
        = formats_with system w p.v.blk (command_f2fs T p.v.blk)
    ∨ (overlaypart_volume_init T system w p = refuses w p.v.blk
        ∧ p.fstype ≠ T.FS_NONE ∧ p.fstype ≠ T.FS_EXT4 ∧ p.fstype ≠ T.FS_F2FS) := by
  by_cases hfound : (overlaypart_volume_identify T w p.v).1 = T.FS_NONE
  · cases hopen : w.fopen p.v.blk with
    | none => exact Or.inr (Or.inl (init_of_unopenable T system w p hfound hopen))
    | some dev =>
      rw [init_of_blank T system w p dev hfound hopen]
      by_cases hn : p.fstype = T.FS_NONE
      · simp only [hn, if_true]
        by_cases hsize : F2FS_MINSIZE ≤ (match dev.size64 with | some s => s % 2 ^ 64 | none => 0)
        · rw [if_pos hsize, if_neg T.f2fs_ne_ext4, if_pos rfl]
          exact Or.inr (Or.inr (Or.inr (Or.inl rfl)))
        · rw [if_neg hsize, if_pos rfl]
          exact Or.inr (Or.inr (Or.inl rfl))
      · simp only [hn, if_false]
        by_cases he : p.fstype = T.FS_EXT4
        · rw [if_pos he]
          exact Or.inr (Or.inr (Or.inl rfl))
        · by_cases hf : p.fstype = T.FS_F2FS
          · rw [if_neg he, if_pos hf]
            exact Or.inr (Or.inr (Or.inr (Or.inl rfl)))
          · right; right; right; right
            simp only [he, hf, if_false]
            exact ⟨rfl, hn, he, hf⟩
  · exact Or.inl (init_of_found T system w p hfound)

theorem formats_with_events (system : World → List Char → Int × World) (w : World)
    (blk cmd : List Char) (r : Int) (w1 : World) (ev : List Event)
    (h : formats_with system w blk cmd = .ok (r, w1, ev)) :
    r = (system w cmd).1 ∧ w1 = (system w cmd).2 ∧
      ev = [Event.fopen blk, Event.fopen blk, Event.ioctl_BLKGETSIZE64 blk, Event.system cmd] := by
  simp only [formats_with, Except.ok.injEq, Prod.mk.injEq] at h
  exact ⟨h.1.symm, h.2.1.symm, h.2.2.symm⟩

/-- C14: whenever a run of `overlaypart_volume_init` contains a `system`
call, the return value is the status that call gave, unchanged (so it is 0
exactly when the status is 0), the world is the one the command left, and
the command is the only one run. -/
theorem init_returns_status (T : Target) (system : World → List Char → Int × World)
    (w : World) (p : overlaypart_volume) (r : Int) (w1 : World) (ev : List Event)
    (cmd : List Char)
    (hrun : overlaypart_volume_init T system w p = .ok (r, w1, ev))
    (hcmd : Event.system cmd ∈ ev) :
    r = (system w cmd).1 ∧ (r = 0 ↔ (system w cmd).1 = 0) ∧ w1 = (system w cmd).2 ∧
      ev.filter (fun e => e matches Event.system _) = [Event.system cmd] := by
  have key : r = (system w cmd).1 ∧ w1 = (system w cmd).2 ∧
      ev = [Event.fopen p.v.blk, Event.fopen p.v.blk, Event.ioctl_BLKGETSIZE64 p.v.blk,
            Event.system cmd] := by
    rcases init_cases T system w p with h | h | h | h | ⟨h, _⟩
    · rw [h] at hrun
      simp only [Except.ok.injEq, Prod.mk.injEq] at hrun
      rw [← hrun.2.2] at hcmd
      simp at hcmd
    · rw [h] at hrun
      cases hrun
    · rw [h] at hrun
      obtain ⟨h1, h2, h3⟩ := formats_with_events _ _ _ _ _ _ _ hrun
      rw [h3] at hcmd
      simp only [List.mem_cons, Event.system.injEq, List.mem_nil_iff, or_false, reduceCtorEq,
        false_or] at hcmd
      subst hcmd
      exact ⟨h1, h2, h3⟩
    · rw [h] at hrun
      obtain ⟨h1, h2, h3⟩ := formats_with_events _ _ _ _ _ _ _ hrun
      rw [h3] at hcmd
      simp only [List.mem_cons, Event.system.injEq, List.mem_nil_iff, or_false, reduceCtorEq,
        false_or] at hcmd
      subst hcmd
      exact ⟨h1, h2, h3⟩
    · rw [h] at hrun
      simp only [refuses, Except.ok.injEq, Prod.mk.injEq] at hrun
      rw [← hrun.2.2] at hcmd
      simp at hcmd
  obtain ⟨h1, h2, h3⟩ := key
  refine ⟨h1, by rw [h1], h2, ?_⟩
  rw [h3]
  rfl

set_option maxRecDepth 8192 in
theorem init_returns_status_witness :
    overlaypart_volume_init target_le (mkfs_status 256)
        (world_with "" "/dev/mmcblk0p4" mode_blk (disk [] [] (some 4096)))
        (volume_on "/dev/mmcblk0p4" 0)
      = .ok (256, world_with "" "/dev/mmcblk0p4" mode_blk (disk [] [] (some 4096)),
          [Event.fopen "/dev/mmcblk0p4".toList, Event.fopen "/dev/mmcblk0p4".toList,
           Event.ioctl_BLKGETSIZE64 "/dev/mmcblk0p4".toList,
           Event.system "mkfs.ext4 -L rootfs_data /dev/mmcblk0p4".toList])
    ∧ (256 : Int) = (mkfs_status 256
        (world_with "" "/dev/mmcblk0p4" mode_blk (disk [] [] (some 4096)))
        "mkfs.ext4 -L rootfs_data /dev/mmcblk0p4".toList).1 :=
  ⟨rfl,
   (init_returns_status target_le (mkfs_status 256)
    (world_with "" "/dev/mmcblk0p4" mode_blk (disk [] [] (some 4096)))
    (volume_on "/dev/mmcblk0p4" 0) 256
    (world_with "" "/dev/mmcblk0p4" mode_blk (disk [] [] (some 4096)))
    [Event.fopen "/dev/mmcblk0p4".toList, Event.fopen "/dev/mmcblk0p4".toList,
     Event.ioctl_BLKGETSIZE64 "/dev/mmcblk0p4".toList,
     Event.system "mkfs.ext4 -L rootfs_data /dev/mmcblk0p4".toList]
    "mkfs.ext4 -L rootfs_data /dev/mmcblk0p4".toList rfl (by decide)).1⟩

/-- C16: for a volume without a stored type on a device that opens and on
which no filesystem is detected, when the capacity query fails the size
stays at the 0 it was initialised with: `overlaypart_volume_init` runs the
Ext4 command, which is not the F2fs command. -/
theorem init_capacity_failure (T : Target) (system : World → List Char → Int × World)
    (w : World) (p : overlaypart_volume) (dev : Device)
    (hhint : p.fstype = T.FS_NONE)
    (hnone : (overlaypart_volume_identify T w p.v).1 = T.FS_NONE)
    (hopen : w.fopen p.v.blk = some dev) (hcap : dev.size64 = none) :
    overlaypart_volume_init T system w p
        = formats_with system w p.v.blk (command_ext4 T p.v.blk)
    ∧ overlaypart_volume_init T system w p
        ≠ formats_with system w p.v.blk (command_f2fs T p.v.blk) := by
  have h : overlaypart_volume_init T system w p
      = formats_with system w p.v.blk (command_ext4 T p.v.blk) := by
    rw [init_of_blank T system w p dev hnone hopen, hcap]
    have hmin : ¬ F2FS_MINSIZE ≤ 0 := by decide
    simp only [hhint, if_true, hmin, if_false]
  refine ⟨h, ?_⟩
  rw [h]
  intro heq
  exact command_f2fs_ne_ext4 T p.v.blk (formats_with_inj system w _ _ _ heq).symm

set_option maxRecDepth 8192 in
theorem init_capacity_failure_witness :
    overlaypart_volume_init target_le mkfs_ok
        (world_with "" "/dev/mmcblk0p4" mode_blk (disk [] [] none))
        (volume_on "/dev/mmcblk0p4" 0)
      = formats_with mkfs_ok (world_with "" "/dev/mmcblk0p4" mode_blk (disk [] [] none))
          "/dev/mmcblk0p4".toList "mkfs.ext4 -L rootfs_data /dev/mmcblk0p4".toList :=
  (init_capacity_failure target_le mkfs_ok
    (world_with "" "/dev/mmcblk0p4" mode_blk (disk [] [] none))
    (volume_on "/dev/mmcblk0p4" 0) (disk [] [] none) rfl rfl rfl rfl).1

theorem refuses_ne_formats_with (system : World → List Char → Int × World) (w : World)
    (blk cmd : List Char) : formats_with system w blk cmd ≠ refuses w blk := by
  intro h
  simp [formats_with, refuses] at h

/-- C17: a volume that `overlaypart_volume_find` returned never takes
`overlaypart_volume_init` into the `default:` case, in any world: the run
ends with a filesystem found, with the fault of a device that does not open,
or with the Ext4 or the F2fs command.  A volume whose stored type is none of
FS_NONE, FS_EXT4, FS_F2FS never has a command run; where no filesystem is
detected and the device opens, the run ends in the `default:` case with
-1.  Nor is the `default:` case reached when the call is made on the heap
that `overlaypart_volume_find` left. -/
theorem init_default_case (T : Target) (system : World → List Char → Int × World) :
    (∀ (w : World) (name : List Char) (p : overlaypart_volume) (ev : List Event) (heap : Heap),
      overlaypart_volume_find T w name = .ok (some p, ev, heap) →
      ∀ w1 : World,
        overlaypart_volume_init T system w1 p ≠ refuses w1 p.v.blk ∧
        (overlaypart_volume_init T system w1 p = .ok (0, w1, [Event.fopen p.v.blk])
          ∨ overlaypart_volume_init T system w1 p = .error Fault.null_stream
          ∨ overlaypart_volume_init T system w1 p
              = formats_with system w1 p.v.blk (command_ext4 T p.v.blk)
          ∨ overlaypart_volume_init T system w1 p
              = formats_with system w1 p.v.blk (command_f2fs T p.v.blk)) ∧
        overlaypart_volume_init_on heap T system w1 p ≠ refuses w1 p.v.blk) ∧
    (∀ p : overlaypart_volume,
      p.fstype ≠ T.FS_NONE → p.fstype ≠ T.FS_EXT4 → p.fstype ≠ T.FS_F2FS →
      ∀ w : World,
        (∀ (r : Int) (w1 : World) (ev : List Event) (cmd : List Char),
          overlaypart_volume_init T system w p = .ok (r, w1, ev) → Event.system cmd ∉ ev) ∧
        (∀ dev : Device, (overlaypart_volume_identify T w p.v).1 = T.FS_NONE →
          w.fopen p.v.blk = some dev →
          overlaypart_volume_init T system w p = refuses w p.v.blk)) := by
  constructor
  · intro w name p ev heap hfind w1
    obtain ⟨_, _, _, _, _, _, _, hnone, _⟩ := find_some T w name p ev heap hfind
    have key : overlaypart_volume_init T system w1 p ≠ refuses w1 p.v.blk ∧
        (overlaypart_volume_init T system w1 p = .ok (0, w1, [Event.fopen p.v.blk])
          ∨ overlaypart_volume_init T system w1 p = .error Fault.null_stream
          ∨ overlaypart_volume_init T system w1 p
              = formats_with system w1 p.v.blk (command_ext4 T p.v.blk)
          ∨ overlaypart_volume_init T system w1 p
              = formats_with system w1 p.v.blk (command_f2fs T p.v.blk)) := by
      rcases init_cases T system w1 p with h | h | h | h | ⟨_, hn, _⟩
      · exact ⟨by rw [h]; simp [refuses], Or.inl h⟩
      · exact ⟨by rw [h]; simp [refuses], Or.inr (Or.inl h)⟩
      · exact ⟨by rw [h]; exact refuses_ne_formats_with _ _ _ _, Or.inr (Or.inr (Or.inl h))⟩
      · exact ⟨by rw [h]; exact refuses_ne_formats_with _ _ _ _, Or.inr (Or.inr (Or.inr h))⟩
      · exact absurd hnone hn
    refine ⟨key.1, key.2, ?_⟩
    cases heap with
    | intact => exact key.1
    | damaged => simp [overlaypart_volume_init_on, refuses]
  · intro p hn he hf w
    constructor
    · intro r w1 ev cmd hrun hmem
      by_cases hfound : (overlaypart_volume_identify T w p.v).1 = T.FS_NONE
      · cases hopen : w.fopen p.v.blk with
        | none =>
          rw [init_of_unopenable T system w p hfound hopen] at hrun
          cases hrun
        | some dev =>
          rw [init_of_blank T system w p dev hfound hopen] at hrun
          simp only [hn, he, hf, if_false, Except.ok.injEq, Prod.mk.injEq] at hrun
          rw [← hrun.2.2] at hmem
          simp at hmem
      · rw [init_of_found T system w p hfound] at hrun
        simp only [Except.ok.injEq, Prod.mk.injEq] at hrun
        rw [← hrun.2.2] at hmem
        simp at hmem
    · intro dev hfound hopen
      rw [init_of_blank T system w p dev hfound hopen]
      simp only [hn, he, hf, if_false]
      rfl

set_option maxRecDepth 8192 in
theorem init_default_case_witness :
    overlaypart_volume_init target_le mkfs_ok
        (world_with "" "/dev/mmcblk0p4" mode_blk (disk [] [] (some 0x40000000)))
        (volume_on "/dev/mmcblk0p4" 99)
      = refuses (world_with "" "/dev/mmcblk0p4" mode_blk (disk [] [] (some 0x40000000)))
          "/dev/mmcblk0p4".toList
    ∧ overlaypart_volume_init target_le mkfs_ok
        (world_with "" "/dev/mmcblk0p4" mode_blk (disk [] [] (some 0x40000000)))
        (volume_on "/dev/mmcblk0p4" target_le.FS_NONE)
      ≠ refuses (world_with "" "/dev/mmcblk0p4" mode_blk (disk [] [] (some 0x40000000)))
          "/dev/mmcblk0p4".toList :=
  ⟨((init_default_case target_le mkfs_ok).2 (volume_on "/dev/mmcblk0p4" 99)
      (by decide) (by decide) (by decide)
      (world_with "" "/dev/mmcblk0p4" mode_blk (disk [] [] (some 0x40000000)))).2
      (disk [] [] (some 0x40000000)) rfl rfl,
   ((init_default_case target_le mkfs_ok).1
      (world_with "console=ttyS0 overlay=/dev/mmcblk0p4" "/dev/mmcblk0p4" mode_blk
        (disk [] [] none))
      "rootfs_data".toList (volume_on "/dev/mmcblk0p4" target_le.FS_NONE)
      [Event.fopen "/proc/cmdline".toList, Event.stat "/dev/mmcblk0p4".toList] Heap.intact rfl
      (world_with "" "/dev/mmcblk0p4" mode_blk (disk [] [] (some 0x40000000)))).1⟩


/-! ## What `overlaypart_volume_find` can store, and the command built from it -/

theorem c_string_length_le (w : List Char) : (c_string w).length ≤ w.length := by
  unfold c_string
  exact (List.takeWhile_prefix _).length_le

/-- One call of `fscanf` either leaves `buffer_dev` alone or returns 1 and
leaves a string shorter than the array in it. -/
theorem fscanf_overlay_buffer (size : Nat) (fp fp1 : FILE Char) (buf buf1 : List Char) (r : Int)
    (h : fscanf_overlay size fp buf = .ok (r, fp1, buf1)) :
    buf1 = buf ∨ (r = 1 ∧ buf1.length < size) := by
  unfold fscanf_overlay at h
  generalize scan_literal "overlay=".toList fp = res at h
  obtain ⟨o, fp2⟩ := res
  cases o with
  | some r0 =>
    simp only [Except.ok.injEq, Prod.mk.injEq] at h
    exact Or.inl h.2.2.symm
  | none =>
    simp only [scan_s] at h
    split_ifs at h with h1 h2
    · simp only [Except.ok.injEq, Prod.mk.injEq] at h
      exact Or.inl h.2.2.symm
    · simp only [Except.ok.injEq, Prod.mk.injEq] at h
      refine Or.inr ⟨h.1.symm, ?_⟩
      rw [← h.2.2]
      have := c_string_length_le
        (List.takeWhile (fun c => !isspace c)
          (List.dropWhile isspace (List.drop fp2.pos fp2.content)))
      omega

/-- The string the loop leaves in `buffer_dev` is the one it started with or
is shorter than the array. -/
theorem scan_loop_buffer (size : Nat) (fuel : Nat) (fp : FILE Char) (buf b : List Char)
    (h : scan_loop size fuel fp buf = .ok b) : b = buf ∨ b.length < size := by
  induction fuel generalizing fp with
  | zero => simp [scan_loop] at h
  | succ n ih =>
    unfold scan_loop at h
    by_cases heof : feof fp = true
    · simp only [heof, if_true, Except.ok.injEq] at h
      exact Or.inl h.symm
    · simp only [heof, Bool.false_eq_true, if_false] at h
      cases hf : fscanf_overlay size fp buf with
      | error e => simp [hf] at h
      | ok res =>
        obtain ⟨r, fp1, buf1⟩ := res
        simp only [hf] at h
        have hb := fscanf_overlay_buffer size fp fp1 buf buf1 r hf
        by_cases hr : r = 0
        · simp only [hr, ne_eq, not_true_eq_false, if_false] at h
          rcases hb with hb | ⟨h1, _⟩
          · rw [hb] at h
            exact ih _ h
          · rw [hr] at h1
            cases h1
        · simp only [ne_eq, hr, not_false_eq_true, if_true, Except.ok.injEq] at h
          rcases hb with hb | ⟨_, hlt⟩
          · exact Or.inl (h.symm.trans hb)
          · exact Or.inr (h ▸ hlt)

/-- Every path `overlaypart_volume_find` stores is shorter than
`COMMAND_LINE_SIZE`. -/
theorem find_blk_fits (T : Target) (w : World) (name : List Char) (p : overlaypart_volume)
    (ev : List Event) (heap : Heap)
    (h : overlaypart_volume_find T w name = .ok (some p, ev, heap)) :
    p.v.blk.length < T.COMMAND_LINE_SIZE := by
  obtain ⟨_, text, _, hscan, hne, _⟩ := find_some T w name p ev heap h
  rcases scan_loop_buffer _ _ _ _ _ hscan with h0 | hlt
  · exact absurd h0 hne
  · exact hlt

theorem snprintf_s_fits (size : Nat) (head arg : List Char)
    (h : head.length + arg.length + 1 ≤ size) : snprintf_s size head arg = head ++ arg := by
  unfold snprintf_s
  apply List.take_of_length_le
  simp only [List.length_append]
  omega

/-- C19: every path `overlaypart_volume_find` stores is shorter than
`COMMAND_LINE_SIZE`; and for every path shorter than `COMMAND_LINE_SIZE`
the 25 characters before it, the path and the terminating NUL fit the
`32 + COMMAND_LINE_SIZE` bytes of `cmd`, so both command lines are the
25 characters followed by the whole path. -/
theorem command_not_truncated (T : Target) :
    (∀ (w : World) (name : List Char) (p : overlaypart_volume) (ev : List Event) (heap : Heap),
      overlaypart_volume_find T w name = .ok (some p, ev, heap) →
      p.v.blk.length < T.COMMAND_LINE_SIZE) ∧
    (∀ blk : List Char, blk.length < T.COMMAND_LINE_SIZE →
      25 + blk.length + 1 ≤ 32 + T.COMMAND_LINE_SIZE ∧
      command_ext4 T blk = "mkfs.ext4 -L rootfs_data ".toList ++ blk ∧
      command_f2fs T blk = "mkfs.f2fs -l rootfs_data ".toList ++ blk) := by
  refine ⟨fun w name p ev heap h => find_blk_fits T w name p ev heap h,
    fun blk hlt => ⟨by omega, ?_, ?_⟩⟩
  · exact snprintf_s_fits _ _ _ (by
      have : "mkfs.ext4 -L rootfs_data ".toList.length = 25 := rfl
      omega)
  · exact snprintf_s_fits _ _ _ (by
      have : "mkfs.f2fs -l rootfs_data ".toList.length = 25 := rfl
      omega)

theorem command_not_truncated_witness :
    command_ext4 target_le "/dev/mmcblk0p4".toList
      = "mkfs.ext4 -L rootfs_data /dev/mmcblk0p4".toList
    ∧ (volume_on "/dev/mmcblk0p4" target_le.FS_NONE).v.blk.length
        < target_le.COMMAND_LINE_SIZE :=
  ⟨((command_not_truncated target_le).2 "/dev/mmcblk0p4".toList (by decide)).2.1,
   (command_not_truncated target_le).1
    (world_with "console=ttyS0 overlay=/dev/mmcblk0p4" "/dev/mmcblk0p4" mode_blk (disk [] [] none))
    "rootfs_data".toList (volume_on "/dev/mmcblk0p4" target_le.FS_NONE)
    [Event.fopen "/proc/cmdline".toList, Event.stat "/dev/mmcblk0p4".toList] Heap.intact rfl⟩

/-! ## Termination of the scan -/

/-- Fuel beyond what the loop needs does not change what it returns. -/
theorem scan_loop_more_fuel (size : Nat) (fuel k : Nat) (fp : FILE Char) (buf : List Char)
    (h : scan_loop size fuel fp buf ≠ .error Fault.out_of_fuel) :
    scan_loop size (fuel + k) fp buf = scan_loop size fuel fp buf := by
  induction fuel generalizing fp buf with
  | zero => exact absurd rfl h
  | succ n ih =>
    rw [Nat.succ_add]
    unfold scan_loop at h ⊢
    by_cases heof : feof fp = true
    · simp only [heof, if_true]
    · simp only [heof, Bool.false_eq_true, if_false] at h ⊢
      cases hf : fscanf_overlay size fp buf with
      | error e => rfl
      | ok res =>
        obtain ⟨r, fp1, buf1⟩ := res
        simp only [hf] at h ⊢
        by_cases hr : r = 0
        · simp only [hr, ne_eq, not_true_eq_false, if_false] at h ⊢
          exact ih _ _ h
        · simp only [ne_eq, hr, not_false_eq_true, if_true]

/-- An iteration that does not leave the loop moves the position forward by
at least one character and not past the end. -/
theorem scan_step_advances (size : Nat) (fp fp1 : FILE Char) (buf buf1 : List Char) (r : Int)
    (h : fscanf_overlay size fp buf = .ok (r, fp1, buf1)) (hr : r = 0) :
    fp.pos + 1 ≤ (fseek_cur fp1 1).pos ∧ (fseek_cur fp1 1).pos ≤ fp.content.length
      ∧ (fseek_cur fp1 1).content = fp.content := by
  subst hr
  by_cases hk : lit_run "overlay=".toList fp.unread = 8
  · unfold fscanf_overlay at h
    rw [scan_literal_eq, overlay_length, if_pos hk] at h
    simp only [scan_s] at h
    split_ifs at h
    · simp [EOF] at h
    · simp at h
  · rw [fscanf_overlay_no_match size fp buf hk] at h
    by_cases hlt : fp.pos + lit_run "overlay=".toList fp.unread < fp.content.length
    · simp only [hlt, if_true, Except.ok.injEq, Prod.mk.injEq, true_and] at h
      rw [← h.1]
      refine ⟨?_, ?_, rfl⟩ <;> simp only [fseek_cur] <;> omega
    · simp only [hlt, if_false, Except.ok.injEq, Prod.mk.injEq] at h
      simp [EOF] at h

/-- On a text shorter than the array the loop ends with a string in
`buffer_dev`: no word can overflow it. -/
theorem scan_loop_ok (size : Nat) (fuel : Nat) (fp : FILE Char) (buf : List Char)
    (hpos : fp.pos ≤ fp.content.length) (hfuel : fp.content.length - fp.pos + 1 ≤ fuel)
    (hsize : fp.content.length < size) :
    ∃ b, scan_loop size fuel fp buf = .ok b := by
  induction fuel generalizing fp with
  | zero => omega
  | succ n ih =>
    unfold scan_loop
    by_cases heof : feof fp = true
    · simp only [heof, if_true]
      exact ⟨_, rfl⟩
    · simp only [heof, Bool.false_eq_true, if_false]
      by_cases hk : lit_run "overlay=".toList fp.unread = 8
      · unfold fscanf_overlay
        rw [scan_literal_eq, overlay_length, if_pos hk]
        simp only [scan_s]
        have hword : (List.takeWhile (fun c => !isspace c)
            (List.dropWhile isspace (List.drop (fp.pos + 8) fp.content))).length
              ≤ fp.content.length :=
          ((List.takeWhile_prefix _).length_le.trans
            ((List.dropWhile_suffix _).length_le)).trans (List.drop_suffix _ _).length_le
        split_ifs with h1 h2
        · exact ⟨_, rfl⟩
        · omega
        · exact ⟨_, rfl⟩
      · rw [fscanf_overlay_no_match size fp buf hk]
        by_cases hlt : fp.pos + lit_run "overlay=".toList fp.unread < fp.content.length
        · simp only [hlt, if_true, ne_eq, not_true_eq_false, if_false]
          apply ih
          · simp only [fseek_cur]
            omega
          · simp only [fseek_cur]
            omega
          · exact hsize
        · simp only [hlt, if_false]
          exact ⟨_, rfl⟩

/-- C18: the scan loop of `overlaypart_volume_find` ends on every text.
One iteration more than the text has characters is enough (the loop is not
cut off, and any larger bound gives the same result); on a text shorter than
the array the loop ends with a string in `buffer_dev`; and an iteration that
does not leave the loop moves the position forward by at least one
character, never past the end of the text. -/
theorem scan_loop_terminates (size : Nat) (text : List Char) :
    scan_loop size (text.length + 1) (FILE.start text) [] ≠ .error Fault.out_of_fuel
    ∧ (∀ fuel, text.length + 1 ≤ fuel →
        scan_loop size fuel (FILE.start text) []
          = scan_loop size (text.length + 1) (FILE.start text) [])
    ∧ (text.length < size →
        ∃ b, scan_loop size (text.length + 1) (FILE.start text) [] = .ok b)
    ∧ (∀ (fp fp1 : FILE Char) (buf buf1 : List Char) (r : Int), fp.content = text →
        fscanf_overlay size fp buf = .ok (r, fp1, buf1) → r = 0 →
        fp.pos + 1 ≤ (fseek_cur fp1 1).pos ∧ (fseek_cur fp1 1).pos ≤ text.length) := by
  have hfuel : scan_loop size (text.length + 1) (FILE.start text) [] ≠ .error Fault.out_of_fuel :=
    scan_loop_fuel size _ (FILE.start text) [] (Nat.zero_le _) (by simp [FILE.start])
  refine ⟨hfuel, ?_, ?_, ?_⟩
  · intro fuel hle
    obtain ⟨k, rfl⟩ := Nat.exists_eq_add_of_le hle
    exact scan_loop_more_fuel size _ k _ _ hfuel
  · intro hsize
    exact scan_loop_ok size _ (FILE.start text) [] (Nat.zero_le _) (by simp [FILE.start]) hsize
  · intro fp fp1 buf buf1 r hc h hr
    have := scan_step_advances size fp fp1 buf buf1 r h hr
    rw [hc] at this
    exact ⟨this.1, this.2.1⟩

theorem scan_loop_terminates_witness :
    scan_loop 1024 1000 (FILE.start "console=ttyS0 overlay=/dev/mmcblk0p4".toList) []
      = scan_loop 1024 ("console=ttyS0 overlay=/dev/mmcblk0p4".toList.length + 1)
          (FILE.start "console=ttyS0 overlay=/dev/mmcblk0p4".toList) []
    ∧ ∃ b, scan_loop 1024 ("console=ttyS0 overlay=/dev/mmcblk0p4".toList.length + 1)
          (FILE.start "console=ttyS0 overlay=/dev/mmcblk0p4".toList) [] = .ok b :=
  ⟨(scan_loop_terminates 1024 "console=ttyS0 overlay=/dev/mmcblk0p4".toList).2.1 1000
      (by decide),
   (scan_loop_terminates 1024 "console=ttyS0 overlay=/dev/mmcblk0p4".toList).2.2.1
      (by decide)⟩


/-! ## Boot lines whose first `overlay=` starts a token -/

/-- The scan of a text whose first `overlay=` starts a token with a path
that fits `buffer_dev` leaves that path in `buffer_dev`. -/
theorem scan_first_token (size : Nat) (pre path tail : List Char)
    (hpre : pre = [] ∨ ∃ q s, pre = q ++ [s] ∧ isspace s = true)
    (hno : ¬ "overlay=".toList <:+: pre)
    (hne : path ≠ []) (hpath : ∀ c ∈ path, isspace c = false ∧ c ≠ '\x00')
    (htail : tail = [] ∨ ∃ c t, tail = c :: t ∧ isspace c = true)
    (hfit : path.length < size) :
    scan_loop size ((pre ++ ("overlay=".toList ++ (path ++ tail))).length + 1)
      (FILE.start (pre ++ ("overlay=".toList ++ (path ++ tail)))) [] = .ok path := by
  have h := scan_loop_token size
    ((pre ++ ("overlay=".toList ++ (path ++ tail))).length + 1)
    (FILE.start (pre ++ ("overlay=".toList ++ (path ++ tail)))) [] pre path tail rfl rfl hpre hno
    (by simp only [List.length_append]; omega) hne (fun c hc => (hpath c hc).1) htail hfit
  rw [c_string_of_no_nul path (fun c hc => (hpath c hc).2)] at h
  exact h

/-- C9, as the code has it: when the first `overlay=` of the boot line
starts a whitespace-delimited token `overlay=<path>` (nothing before the
token contains `overlay=`), with a non-empty path free of NUL that fits
`buffer_dev`, and that path cannot be stat-ed or stats with
`st_rdev == 0`, `overlaypart_volume_find("rootfs_data")` returns NULL: it
has opened /proc/cmdline and stat-ed the path, and no volume is created. -/
theorem find_rejects_non_device (T : Target) (w : World) (pre path tail : List Char)
    (hcmd : w.proc_cmdline = some (pre ++ ("overlay=".toList ++ (path ++ tail))))
    (hpre : pre = [] ∨ ∃ q s, pre = q ++ [s] ∧ isspace s = true)
    (hno : ¬ "overlay=".toList <:+: pre)
    (hne : path ≠ []) (hpath : ∀ c ∈ path, isspace c = false ∧ c ≠ '\x00')
    (htail : tail = [] ∨ ∃ c t, tail = c :: t ∧ isspace c = true)
    (hfit : path.length < T.COMMAND_LINE_SIZE)
    (hbad : w.stat path = none ∨ ∃ st, w.stat path = some st ∧ st.st_rdev = 0) :
    overlaypart_volume_find T w "rootfs_data".toList
      = .ok (none, [Event.fopen "/proc/cmdline".toList, Event.stat path], Heap.intact) := by
  have hscan := scan_first_token T.COMMAND_LINE_SIZE pre path tail hpre hno hne hpath htail hfit
  unfold overlaypart_volume_find overlaypart_volume_find_fuel
  simp only [ne_eq, not_true_eq_false, if_false, hcmd, Option.getD_some, hscan, hne]
  rcases hbad with hnone | ⟨st, hst, hrdev⟩
  · simp only [hnone]
  · simp only [hst, hrdev, if_true]

theorem find_rejects_non_device_witness :
    overlaypart_volume_find target_le
        (world_with "console=ttyS0 overlay=/no/such/path rootwait" "/dev/mmcblk0p4" mode_blk
          (disk [] [] none)) "rootfs_data".toList
      = .ok (none, [Event.fopen "/proc/cmdline".toList, Event.stat "/no/such/path".toList],
          Heap.intact) :=
  find_rejects_non_device target_le _ "console=ttyS0 ".toList "/no/such/path".toList
    " rootwait".toList rfl
    (Or.inr ⟨"console=ttyS0".toList, ' ', rfl, rfl⟩) (by decide) (by decide) (by decide)
    (Or.inr ⟨' ', "rootwait".toList, rfl, rfl⟩) (by decide) (Or.inl rfl)

/-- C9 fails as stated.  In `xoverlay=/dev/sda1 overlay=/no/such/path` the
`overlay=` token names a path that cannot be stat-ed, yet
`overlaypart_volume_find` takes /dev/sda1 from inside the token before it
and returns a volume.  In `overlay= /dev/sda2` the path of the `overlay=`
token is empty and cannot be stat-ed, yet `%s` skips the blank and
`overlaypart_volume_find` returns the volume on /dev/sda2. -/
theorem find_rejects_non_device_counterexample :
    (first_overlay_path "xoverlay=/dev/sda1 overlay=/no/such/path".toList
        = some "/no/such/path".toList
      ∧ (world_with "xoverlay=/dev/sda1 overlay=/no/such/path" "/dev/sda1" mode_blk
            (disk [] [] none)).stat "/no/such/path".toList = none
      ∧ overlaypart_volume_find target_le
          (world_with "xoverlay=/dev/sda1 overlay=/no/such/path" "/dev/sda1" mode_blk
            (disk [] [] none)) "rootfs_data".toList
        = .ok (some (volume_on "/dev/sda1" target_le.FS_NONE),
            [Event.fopen "/proc/cmdline".toList, Event.stat "/dev/sda1".toList], Heap.intact))
    ∧ (first_overlay_path "overlay= /dev/sda2".toList = some []
      ∧ (world_with "overlay= /dev/sda2" "/dev/sda2" mode_blk (disk [] [] none)).stat [] = none
      ∧ overlaypart_volume_find target_le
          (world_with "overlay= /dev/sda2" "/dev/sda2" mode_blk (disk [] [] none))
          "rootfs_data".toList
        = .ok (some (volume_on "/dev/sda2" target_le.FS_NONE),
            [Event.fopen "/proc/cmdline".toList, Event.stat "/dev/sda2".toList], Heap.intact)) :=
  ⟨⟨rfl, rfl, rfl⟩, ⟨rfl, rfl, rfl⟩⟩

/-- C15, as the code has it: when the first `overlay=` of the boot line
starts a whitespace-delimited token `overlay=<path>` (nothing before the
token contains `overlay=`), with a non-empty path free of NUL that fits
`buffer_dev` and stats as a device, and the first token
`overlayfstype=<value>` of the line has a value that is neither `ext4` nor
`f2fs`, `overlaypart_volume_find("rootfs_data")` returns the volume on
that path with the hint the specification gives the line, which is
FS_NONE. -/
theorem find_unknown_fstype (T : Target) (w : World) (pre path tail value : List Char)
    (st : stat_t)
    (hcmd : w.proc_cmdline = some (pre ++ ("overlay=".toList ++ (path ++ tail))))
    (hpre : pre = [] ∨ ∃ q s, pre = q ++ [s] ∧ isspace s = true)
    (hno : ¬ "overlay=".toList <:+: pre)
    (hne : path ≠ []) (hpath : ∀ c ∈ path, isspace c = false ∧ c ≠ '\x00')
    (htail : tail = [] ∨ ∃ c t, tail = c :: t ∧ isspace c = true)
    (hfit : path.length < T.COMMAND_LINE_SIZE)
    (hstat : w.stat path = some st) (hdev : st.st_rdev ≠ 0)
    (hvalue : first_overlayfstype (pre ++ ("overlay=".toList ++ (path ++ tail))) = some value)
    (hext4 : value ≠ "ext4".toList) (hf2fs : value ≠ "f2fs".toList) :
    overlaypart_volume_find T w "rootfs_data".toList
      = .ok (some { v := { name := "rootfs_data".toList, blk := path },
                    fstype := spec_hint T (pre ++ ("overlay=".toList ++ (path ++ tail))) },
          [Event.fopen "/proc/cmdline".toList, Event.stat path], calloc_strcpy T path)
    ∧ spec_hint T (pre ++ ("overlay=".toList ++ (path ++ tail))) = T.FS_NONE := by
  have hhint : spec_hint T (pre ++ ("overlay=".toList ++ (path ++ tail))) = T.FS_NONE := by
    unfold spec_hint
    rw [hvalue]
    simp only [if_neg hext4, if_neg hf2fs]
  have hscan := scan_first_token T.COMMAND_LINE_SIZE pre path tail hpre hno hne hpath htail hfit
  refine ⟨?_, hhint⟩
  rw [hhint]
  unfold overlaypart_volume_find overlaypart_volume_find_fuel
  simp only [ne_eq, not_true_eq_false, if_false, hcmd, Option.getD_some, hscan, hne, hstat, hdev]

theorem find_unknown_fstype_witness :
    overlaypart_volume_find target_le
        (world_with "console=ttyS0 overlay=/dev/mmcblk0p4 overlayfstype=btrfs" "/dev/mmcblk0p4"
          mode_blk (disk [] [] none)) "rootfs_data".toList
      = .ok (some { v := { name := "rootfs_data".toList, blk := "/dev/mmcblk0p4".toList },
                    fstype := target_le.FS_NONE },
          [Event.fopen "/proc/cmdline".toList, Event.stat "/dev/mmcblk0p4".toList],
          Heap.intact) :=
  (find_unknown_fstype target_le _ "console=ttyS0 ".toList "/dev/mmcblk0p4".toList
    " overlayfstype=btrfs".toList "btrfs".toList { st_mode := mode_blk, st_rdev := 0xb304 } rfl
    (Or.inr ⟨"console=ttyS0".toList, ' ', rfl, rfl⟩) (by decide) (by decide) (by decide)
    (Or.inr ⟨' ', "overlayfstype=btrfs".toList, rfl, rfl⟩) (by decide) rfl (by decide)
    rfl (by decide) (by decide)).1

/-- C15 fails as stated: in
`xoverlay=/dev/bad overlay=/dev/sda2 overlayfstype=btrfs` the `overlay=`
token names the block device /dev/sda2 and the value of `overlayfstype=`
is neither `ext4` nor `f2fs`, yet `overlaypart_volume_find` takes /dev/bad
from inside the token before, fails to stat it and returns NULL. -/
theorem find_unknown_fstype_counterexample :
    first_overlay_path "xoverlay=/dev/bad overlay=/dev/sda2 overlayfstype=btrfs".toList
      = some "/dev/sda2".toList
    ∧ (world_with "xoverlay=/dev/bad overlay=/dev/sda2 overlayfstype=btrfs" "/dev/sda2"
          mode_blk (disk [] [] none)).stat "/dev/sda2".toList
        = some { st_mode := mode_blk, st_rdev := 0xb304 }
    ∧ first_overlayfstype "xoverlay=/dev/bad overlay=/dev/sda2 overlayfstype=btrfs".toList
      = some "btrfs".toList
    ∧ overlaypart_volume_find target_le
        (world_with "xoverlay=/dev/bad overlay=/dev/sda2 overlayfstype=btrfs" "/dev/sda2"
          mode_blk (disk [] [] none)) "rootfs_data".toList
      = .ok (none, [Event.fopen "/proc/cmdline".toList, Event.stat "/dev/bad".toList],
          Heap.intact) :=
  ⟨rfl, rfl, rfl, rfl⟩


/-! ## `overlaypart_volume_find` followed by `overlaypart_volume_init` -/

/-- The copy of the path damages the heap exactly when the block `calloc`
returned for `strlen` bytes has no byte to spare for the NUL. -/
theorem calloc_strcpy_damaged (T : Target) (s : List Char) :
    calloc_strcpy T s = Heap.damaged ↔ T.malloc_usable_size s.length = s.length := by
  have hge := T.usable_ge s.length
  unfold calloc_strcpy
  split
  · constructor
    · intro h
      cases h
    · intro h
      omega
  · constructor
    · intro _
      omega
    · intro _
      rfl

/-- Where the copy of the path left the heap intact, the device opens and
no filesystem is detected, `overlaypart_volume_init` runs one command for a
volume that `overlaypart_volume_find` returned: `mkfs.f2fs -l <name> <blk>`
with a capacity of at least `F2FS_MINSIZE`, otherwise
`mkfs.ext4 -L <name> <blk>`. -/
theorem init_after_find_intact (T : Target) (system : World → List Char → Int × World)
    (w : World) (name : List Char) (p : overlaypart_volume) (ev : List Event)
    (hfind : overlaypart_volume_find T w name = .ok (some p, ev, Heap.intact))
    (w1 : World) (dev : Device)
    (hnone : (overlaypart_volume_identify T w1 p.v).1 = T.FS_NONE)
    (hopen : w1.fopen p.v.blk = some dev) :
    overlaypart_volume_init_on Heap.intact T system w1 p
      = if F2FS_MINSIZE ≤ dev.size64.getD 0 % 2 ^ 64 then
          formats_with system w1 p.v.blk
            ("mkfs.f2fs -l ".toList ++ p.v.name ++ " ".toList ++ p.v.blk)
        else
          formats_with system w1 p.v.blk
            ("mkfs.ext4 -L ".toList ++ p.v.name ++ " ".toList ++ p.v.blk) := by
  obtain ⟨_, _, _, _, _, _, hname, hhint, _⟩ := find_some T w name p ev _ hfind
  have hfit := find_blk_fits T w name p ev _ hfind
  have he : command_ext4 T p.v.blk
      = "mkfs.ext4 -L ".toList ++ p.v.name ++ " ".toList ++ p.v.blk := by
    rw [hname]
    exact snprintf_s_fits _ _ _ (by
      have : "mkfs.ext4 -L rootfs_data ".toList.length = 25 := rfl
      omega)
  have hf : command_f2fs T p.v.blk
      = "mkfs.f2fs -l ".toList ++ p.v.name ++ " ".toList ++ p.v.blk := by
    rw [hname]
    exact snprintf_s_fits _ _ _ (by
      have : "mkfs.f2fs -l rootfs_data ".toList.length = 25 := rfl
      omega)
  have hsize : (match dev.size64 with | some s => s % 2 ^ 64 | none => 0)
      = dev.size64.getD 0 % 2 ^ 64 := by
    cases dev.size64 <;> rfl
  show overlaypart_volume_init T system w1 p = _
  rw [init_of_blank T system w1 p dev hnone hopen, hsize, ← he, ← hf]
  simp only [hhint, if_true]
  by_cases hc : F2FS_MINSIZE ≤ dev.size64.getD 0 % 2 ^ 64
  · rw [if_pos hc, if_pos hc, if_neg T.f2fs_ne_ext4, if_pos rfl]
  · rw [if_neg hc, if_neg hc, if_pos rfl]

set_option maxRecDepth 8192 in
/-- C13: two runs in which `overlaypart_volume_find` returns a volume, no
filesystem is detected on its device, and `overlaypart_volume_init` runs no
command.  With the 24-character path /dev/disk/by-label/data0 the block
`calloc(strlen(buffer_dev), 1)` gives has 24 bytes, `strcpy` writes 25, and
the `fopen` of the following `overlaypart_volume_init` meets a damaged
heap.  With a device node that stats but does not open,
`overlaypart_volume_identify` returns FS_NONE and `overlaypart_volume_init`
hands the null pointer of its own `fopen` to `fileno`. -/
theorem find_then_init_runs_no_command :
    (overlaypart_volume_find target_le
        (world_with "console=ttyS0 overlay=/dev/disk/by-label/data0" "/dev/disk/by-label/data0"
          mode_blk (disk [] [] (some 0x40000000))) "rootfs_data".toList
      = .ok (some (volume_on "/dev/disk/by-label/data0" target_le.FS_NONE),
          [Event.fopen "/proc/cmdline".toList, Event.stat "/dev/disk/by-label/data0".toList],
          Heap.damaged)
    ∧ (overlaypart_volume_identify target_le
        (world_with "console=ttyS0 overlay=/dev/disk/by-label/data0" "/dev/disk/by-label/data0"
          mode_blk (disk [] [] (some 0x40000000)))
        (volume_on "/dev/disk/by-label/data0" target_le.FS_NONE).v).1 = target_le.FS_NONE
    ∧ overlaypart_volume_init_on Heap.damaged target_le mkfs_ok
        (world_with "console=ttyS0 overlay=/dev/disk/by-label/data0" "/dev/disk/by-label/data0"
          mode_blk (disk [] [] (some 0x40000000)))
        (volume_on "/dev/disk/by-label/data0" target_le.FS_NONE)
      = .error Fault.heap_damaged)
    ∧ (overlaypart_volume_find target_le
        (world_unopenable "console=ttyS0 overlay=/dev/mmcblk0p4" "/dev/mmcblk0p4")
        "rootfs_data".toList
      = .ok (some (volume_on "/dev/mmcblk0p4" target_le.FS_NONE),
          [Event.fopen "/proc/cmdline".toList, Event.stat "/dev/mmcblk0p4".toList],
          Heap.intact)
    ∧ (overlaypart_volume_identify target_le
        (world_unopenable "console=ttyS0 overlay=/dev/mmcblk0p4" "/dev/mmcblk0p4")
        (volume_on "/dev/mmcblk0p4" target_le.FS_NONE).v).1 = target_le.FS_NONE
    ∧ overlaypart_volume_init_on Heap.intact target_le mkfs_ok
        (world_unopenable "console=ttyS0 overlay=/dev/mmcblk0p4" "/dev/mmcblk0p4")
        (volume_on "/dev/mmcblk0p4" target_le.FS_NONE)
      = .error Fault.null_stream) :=
  ⟨⟨rfl, rfl, rfl⟩, ⟨rfl, rfl, rfl⟩⟩

end Overlaypart
